import Mathlib

/-!
# Verification of the WeChat publisher core (`wechat-publisher-mcp`)

Shallow embedding of the repository's publish-orchestration pipeline:

* `WeChatAPI.extractDigest` (`src/unnamed/part_000`, lines 451-467) — the
  digest extraction pipeline: strip `<style>` blocks, strip markup tags,
  strip markdown punctuation, collapse whitespace runs, trim, truncate.
* `WeChatAPI.getAccessToken` (`src/unnamed/part_000`, lines 26-67) — the
  token cache.
* `WeChatAPI.uploadCoverImage`, `publishArticle`, `previewArticle`,
  `createNewsMedia`, `getPublishStatus` (`src/unnamed/part_000`) — the
  orchestration pipeline with its test/sandbox short circuits.  Network
  calls are modelled by response oracles passed in explicitly, and the
  calls a run would issue are recorded in an explicit trace.
* `WeChatStatus.getStatusText`, `WeChatStatus.query`
  (`src/unnamed/part_001`) and `WeChatPublisher.publish`
  (`src/src/tools/wechat-publisher.js`) — the MCP tool layer.

JavaScript strings are modelled as `List Char` (or `String` where no
character surgery happens); JavaScript truthiness on strings, numbers and
options is modelled explicitly.  Times are `Int` milliseconds.
-/

/-! ## JavaScript-semantics helpers -/

/-- Truthiness of a possibly-absent JS string (`undefined`/`null`/`""` are
falsy, every other string truthy). -/
def jsTruthy : Option String → Bool
  | none => false
  | some s => s ≠ ""

/-- `a || b` for a possibly-absent JS string with a string default, as in
`errorData.errmsg || error.message`. -/
def jsOr (o : Option String) (dflt : String) : String :=
  match o with
  | none => dflt
  | some s => if s = "" then dflt else s

/-- Template-literal rendering of a possibly-absent JS string:
`` `${x}` `` prints `undefined` when the field is absent. -/
def optTemplate : Option String → String
  | none => "undefined"
  | some s => s

/-- The JavaScript regular-expression class `\s` (also the set trimmed by
`String.prototype.trim`): space, `\t`, `\n`, `\v`, `\f`, `\r`, NBSP,
Ogham space mark, the U+2000-U+200A range, LS, PS, NNBSP, MMSP,
ideographic space and the BOM. -/
def isJsWs (c : Char) : Bool :=
  c = ' ' || c = '\t' || c = '\n' || c = '\x0b' || c = '\x0c' || c = '\r' ||
  c = ' ' || c = ' ' ||
  (0x2000 ≤ c.toNat && c.toNat ≤ 0x200A) ||
  c = ' ' || c = ' ' || c = ' ' || c = ' ' ||
  c = '　' || c = '﻿'

/-- Case-insensitive match of one pattern character (the pattern characters
occurring in the source regexes are lowercase ASCII letters or symbols)
against a subject character, as under the regex `i` flag. -/
def ciMatch (p c : Char) : Bool :=
  c = p || ('a' ≤ p && p ≤ 'z' && c.toNat + 32 = p.toNat)

/-- Case-insensitive "starts with" for a literal regex fragment. -/
def matchesCi : List Char → List Char → Bool
  | [], _ => true
  | _ :: _, [] => false
  | p :: ps, c :: cs => ciMatch p c && matchesCi ps cs

/-! ## `WeChatAPI.extractDigest` (src/unnamed/part_000, lines 451-467)

```js
extractDigest(content) {
  let digest = content
    .replace(/<style[^>]*>[\s\S]*?<\/style>/gi, '')
    .replace(/<[^>]*>/g, '')
    .replace(/[#*`]/g, '')
    .replace(/\s+/g, ' ')
    .trim();
  if (digest.length > 60) {
    digest = digest.substring(0, 60) + '...';
  }
  return digest;
}
```

Each `.replace` with a global regex is embedded as a left-to-right scan
with the exact match/advance discipline of the JS regex engine.  The
recursions jump over consumed matches, so they are phrased with explicit
fuel (structural recursion, hence kernel-reducible) plus a proof that any
fuel of at least the list length gives the same answer. -/

/-- `[^>]*>`: if the list contains `'>'`, the part strictly after the
first `'>'` (the regex `<[^>]*>` consumes up to and including the first
`'>'`); `none` when there is no `'>'`, in which case the regex fails. -/
def splitAtGt : List Char → Option (List Char)
  | [] => none
  | c :: cs => if c = '>' then some cs else splitAtGt cs

/-- Lazy `[\s\S]*?<\/style>` (with `i`): drop through the first
case-insensitive occurrence of `</style>`; `none` if there is none. -/
def dropThroughCloseStyle : List Char → Option (List Char)
  | [] => none
  | c :: cs =>
    if matchesCi ("</style>".toList) (c :: cs) then some ((c :: cs).drop 8)
    else dropThroughCloseStyle cs

/-- One attempted match of `<style[^>]*>[\s\S]*?<\/style>` (flag `i`) at
the head of the list: the suffix after the whole match, or `none` when
the regex does not match here. -/
def styleMatch (cs : List Char) : Option (List Char) :=
  if matchesCi ("<style".toList) cs then
    match splitAtGt (cs.drop 6) with
    | some afterOpen => dropThroughCloseStyle afterOpen
    | none => none
  else none

/-- Fueled scan of `.replace(/<style[^>]*>[\s\S]*?<\/style>/gi, '')`. -/
def removeStyleF : Nat → List Char → List Char
  | 0, l => l
  | _ + 1, [] => []
  | fuel + 1, c :: cs =>
    match styleMatch (c :: cs) with
    | some after => removeStyleF fuel after
    | none => c :: removeStyleF fuel cs

/-- `.replace(/<style[^>]*>[\s\S]*?<\/style>/gi, '')`. -/
def removeStyle (l : List Char) : List Char :=
  removeStyleF l.length l

/-- Fueled scan of `.replace(/<[^>]*>/g, '')`. -/
def removeTagsF : Nat → List Char → List Char
  | 0, l => l
  | _ + 1, [] => []
  | fuel + 1, c :: cs =>
    if c = '<' then
      match splitAtGt cs with
      | some after => removeTagsF fuel after
      | none => c :: removeTagsF fuel cs
    else c :: removeTagsF fuel cs

/-- `.replace(/<[^>]*>/g, '')`. -/
def removeTags (l : List Char) : List Char :=
  removeTagsF l.length l

/-- `.replace(/[#*`]/g, '')`. -/
def isMdMark (c : Char) : Bool :=
  c = '#' || c = '*' || c = '`'

/-- `.replace(/[#*`]/g, '')` keeps exactly the non-markdown characters. -/
def removeMd (l : List Char) : List Char :=
  l.filter (fun c => !isMdMark c)

/-- Fueled scan of `.replace(/\s+/g, ' ')`: each maximal whitespace run
becomes a single space. -/
def collapseWsF : Nat → List Char → List Char
  | 0, l => l
  | _ + 1, [] => []
  | fuel + 1, c :: cs =>
    if isJsWs c then ' ' :: collapseWsF fuel (cs.dropWhile isJsWs)
    else c :: collapseWsF fuel cs

/-- `.replace(/\s+/g, ' ')`. -/
def collapseWs (l : List Char) : List Char :=
  collapseWsF l.length l

/-- Drop trailing JS whitespace. -/
def dropTrailWs (l : List Char) : List Char :=
  (l.reverse.dropWhile isJsWs).reverse

/-- `String.prototype.trim` on the JS whitespace class. -/
def trimWs (l : List Char) : List Char :=
  dropTrailWs (l.dropWhile isJsWs)

/-- The ellipsis marker `'...'` appended by `extractDigest`. -/
def ellipsisMarker : List Char := ['.', '.', '.']

/-- The cleaned text of `extractDigest` before the length check: the five
chained `.replace`/`.trim` steps. -/
def cleanedText (content : List Char) : List Char :=
  trimWs (collapseWs (removeMd (removeTags (removeStyle content))))

/-- `WeChatAPI.extractDigest` (src/unnamed/part_000, lines 451-467). -/
def extractDigest (content : List Char) : List Char :=
  let digest := cleanedText content
  if digest.length > 60 then digest.take 60 ++ ellipsisMarker else digest

/-! ### Fuel irrelevance and unfolding equations -/

theorem splitAtGt_length {l after : List Char} (h : splitAtGt l = some after) :
    after.length < l.length := by
  induction l with
  | nil => simp [splitAtGt] at h
  | cons c cs ih =>
    simp only [splitAtGt] at h
    split at h
    · cases h; simp
    · exact Nat.lt_trans (ih h) (by simp)

theorem dropThroughCloseStyle_length {l after : List Char}
    (h : dropThroughCloseStyle l = some after) : after.length < l.length := by
  induction l with
  | nil => simp [dropThroughCloseStyle] at h
  | cons c cs ih =>
    simp only [dropThroughCloseStyle] at h
    split at h
    · cases h
      simp only [List.length_drop, List.length_cons]
      omega
    · exact Nat.lt_trans (ih h) (by simp)

theorem styleMatch_length {l after : List Char} (h : styleMatch l = some after) :
    after.length < l.length := by
  unfold styleMatch at h
  split at h
  · split at h
    · next hsplit =>
      have h1 := splitAtGt_length hsplit
      have h2 := dropThroughCloseStyle_length h
      have : (l.drop 6).length ≤ l.length := by simp
      omega
    · cases h
  · cases h

theorem removeStyleF_fuel :
    ∀ (f₁ f₂ : Nat) (l : List Char), l.length ≤ f₁ → l.length ≤ f₂ →
      removeStyleF f₁ l = removeStyleF f₂ l := by
  intro f₁
  induction f₁ with
  | zero =>
    intro f₂ l h₁ _
    have : l = [] := List.eq_nil_of_length_eq_zero (Nat.le_zero.mp h₁)
    subst this
    cases f₂ <;> rfl
  | succ f ih =>
    intro f₂ l h₁ h₂
    match l with
    | [] => cases f₂ <;> rfl
    | c :: cs =>
      match f₂, h₂ with
      | f₂' + 1, h₂ =>
        simp only [List.length_cons] at h₁ h₂
        simp only [removeStyleF]
        cases hm : styleMatch (c :: cs) with
        | some after =>
          have hlen := styleMatch_length hm
          simp only [List.length_cons] at hlen
          exact ih f₂' after (by omega) (by omega)
        | none =>
          have := ih f₂' cs (by omega) (by omega)
          rw [this]

theorem removeStyle_nil : removeStyle [] = [] := rfl

theorem removeStyle_cons (c : Char) (cs : List Char) :
    removeStyle (c :: cs) =
      match styleMatch (c :: cs) with
      | some after => removeStyle after
      | none => c :: removeStyle cs := by
  show removeStyleF (cs.length + 1) (c :: cs) = _
  simp only [removeStyleF]
  cases hm : styleMatch (c :: cs) with
  | some after =>
    have hlen := styleMatch_length hm
    simp only [List.length_cons] at hlen
    exact removeStyleF_fuel _ _ after (by omega) le_rfl
  | none => rfl

theorem removeTagsF_fuel :
    ∀ (f₁ f₂ : Nat) (l : List Char), l.length ≤ f₁ → l.length ≤ f₂ →
      removeTagsF f₁ l = removeTagsF f₂ l := by
  intro f₁
  induction f₁ with
  | zero =>
    intro f₂ l h₁ _
    have : l = [] := List.eq_nil_of_length_eq_zero (Nat.le_zero.mp h₁)
    subst this
    cases f₂ <;> rfl
  | succ f ih =>
    intro f₂ l h₁ h₂
    match l with
    | [] => cases f₂ <;> rfl
    | c :: cs =>
      match f₂, h₂ with
      | f₂' + 1, h₂ =>
        simp only [List.length_cons] at h₁ h₂
        simp only [removeTagsF]
        by_cases hc : c = '<'
        · simp only [hc, if_true]
          cases hs : splitAtGt cs with
          | some after =>
            have hlen := splitAtGt_length hs
            exact ih f₂' after (by omega) (by omega)
          | none =>
            have := ih f₂' cs (by omega) (by omega)
            rw [this]
        · simp only [hc, if_false]
          have := ih f₂' cs (by omega) (by omega)
          rw [this]

theorem removeTags_nil : removeTags [] = [] := rfl

theorem removeTags_cons (c : Char) (cs : List Char) :
    removeTags (c :: cs) =
      if c = '<' then
        match splitAtGt cs with
        | some after => removeTags after
        | none => c :: removeTags cs
      else c :: removeTags cs := by
  show removeTagsF (cs.length + 1) (c :: cs) = _
  simp only [removeTagsF]
  by_cases hc : c = '<'
  · simp only [hc, if_true]
    cases hs : splitAtGt cs with
    | some after =>
      have hlen := splitAtGt_length hs
      exact removeTagsF_fuel _ _ after (by omega) le_rfl
    | none => rfl
  · simp only [hc, if_false]
    rfl

theorem collapseWsF_fuel :
    ∀ (f₁ f₂ : Nat) (l : List Char), l.length ≤ f₁ → l.length ≤ f₂ →
      collapseWsF f₁ l = collapseWsF f₂ l := by
  intro f₁
  induction f₁ with
  | zero =>
    intro f₂ l h₁ _
    have : l = [] := List.eq_nil_of_length_eq_zero (Nat.le_zero.mp h₁)
    subst this
    cases f₂ <;> rfl
  | succ f ih =>
    intro f₂ l h₁ h₂
    match l with
    | [] => cases f₂ <;> rfl
    | c :: cs =>
      match f₂, h₂ with
      | f₂' + 1, h₂ =>
        simp only [List.length_cons] at h₁ h₂
        simp only [collapseWsF]
        have hdw : (cs.dropWhile isJsWs).length ≤ cs.length :=
          (List.dropWhile_sublist _).length_le
        by_cases hc : isJsWs c
        · have := ih f₂' (cs.dropWhile isJsWs) (by omega) (by omega)
          simp [hc, this]
        · have := ih f₂' cs (by omega) (by omega)
          simp [hc, this]

theorem collapseWs_nil : collapseWs [] = [] := rfl

theorem collapseWs_cons (c : Char) (cs : List Char) :
    collapseWs (c :: cs) =
      if isJsWs c then ' ' :: collapseWs (cs.dropWhile isJsWs)
      else c :: collapseWs cs := by
  show collapseWsF (cs.length + 1) (c :: cs) = _
  simp only [collapseWsF]
  have hdw : (cs.dropWhile isJsWs).length ≤ cs.length :=
    (List.dropWhile_sublist _).length_le
  by_cases hc : isJsWs c
  · simp only [hc, if_true]
    rw [collapseWsF_fuel cs.length (cs.dropWhile isJsWs).length _ hdw le_rfl]
    rfl
  · simp only [hc, if_false]
    rfl

/-! ### Absence of markup tags

A string contains a substring matching `<[^>]*>` exactly when some `'<'`
occurs (anywhere) before some `'>'`: the first `'>'` after such a `'<'`
closes a tag.  `hasLtThenGt` decides that condition. -/

/-- Some `'>'` occurs in the list. -/
def hasGt (l : List Char) : Bool := l.any (fun d => d = '>')

/-- Some `'<'` occurs strictly before some `'>'` — equivalently, the
string has a substring matching the regex `<[^>]*>`. -/
def hasLtThenGt : List Char → Bool
  | [] => false
  | c :: cs => (c = '<' && hasGt cs) || hasLtThenGt cs

theorem hasGt_iff {l : List Char} : hasGt l = true ↔ '>' ∈ l := by
  simp [hasGt, List.any_eq_true]

theorem hasLtThenGt_cons (c : Char) (cs : List Char) :
    hasLtThenGt (c :: cs) = ((c = '<' && hasGt cs) || hasLtThenGt cs) := rfl

theorem hasLtThenGt_tail {c : Char} {cs : List Char}
    (h : hasLtThenGt (c :: cs) = false) : hasLtThenGt cs = false := by
  simp only [hasLtThenGt_cons, Bool.or_eq_false_iff] at h
  exact h.2

theorem hasLtThenGt_iff_sublist {l : List Char} :
    hasLtThenGt l = true ↔ List.Sublist ['<', '>'] l := by
  induction l with
  | nil => simp [hasLtThenGt]
  | cons c cs ih =>
    simp only [hasLtThenGt_cons, Bool.or_eq_true, Bool.and_eq_true,
      decide_eq_true_eq, hasGt_iff]
    constructor
    · rintro (⟨rfl, hm⟩ | h)
      · exact (List.singleton_sublist.mpr hm).cons₂ '<'
      · exact (ih.mp h).cons c
    · intro h
      cases h with
      | cons _ h' => exact Or.inr (ih.mpr h')
      | cons₂ _ h' => exact Or.inl ⟨rfl, List.singleton_sublist.mp h'⟩

theorem hasLtThenGt_of_sublist {l l' : List Char} (hs : List.Sublist l' l)
    (h : hasLtThenGt l = false) : hasLtThenGt l' = false := by
  by_contra hne
  have : hasLtThenGt l' = true := by
    cases hl' : hasLtThenGt l' with
    | true => rfl
    | false => exact absurd hl' hne
  have := (hasLtThenGt_iff_sublist.mp this).trans hs
  rw [hasLtThenGt_iff_sublist.mpr this] at h
  cases h

theorem splitAtGt_eq_none {l : List Char} : splitAtGt l = none ↔ '>' ∉ l := by
  induction l with
  | nil => simp [splitAtGt]
  | cons c cs ih =>
    simp only [splitAtGt]
    by_cases hc : c = '>'
    · subst hc; simp
    · simp [hc, ih, Ne.symm hc]

theorem splitAtGt_suffix {l a : List Char} (h : splitAtGt l = some a) :
    a <:+ l := by
  induction l with
  | nil => simp [splitAtGt] at h
  | cons c cs ih =>
    simp only [splitAtGt] at h
    split at h
    · cases h
      exact (List.suffix_cons c a)
    · exact (ih h).trans (List.suffix_cons c cs)

theorem removeTags_sublist (l : List Char) : List.Sublist (removeTags l) l := by
  suffices h : ∀ (n : Nat) (l : List Char), l.length ≤ n →
      List.Sublist (removeTags l) l from h l.length l le_rfl
  intro n
  induction n with
  | zero =>
    intro l hl
    have : l = [] := List.eq_nil_of_length_eq_zero (Nat.le_zero.mp hl)
    subst this
    simp [removeTags_nil]
  | succ n ih =>
    intro l hl
    match l with
    | [] => simp [removeTags_nil]
    | c :: cs =>
      simp only [List.length_cons] at hl
      rw [removeTags_cons]
      by_cases hc : c = '<'
      · simp only [hc, if_true]
        cases hs : splitAtGt cs with
        | some after =>
          have h₁ := splitAtGt_length hs
          have h₂ := (splitAtGt_suffix hs).sublist
          have := ih after (by omega)
          exact (this.trans h₂).trans (List.sublist_cons_self '<' cs)
        | none =>
          exact (ih cs (by omega)).cons₂ '<'
      · simp only [hc, if_false]
        exact (ih cs (by omega)).cons₂ c

theorem hasLtThenGt_removeTags (l : List Char) :
    hasLtThenGt (removeTags l) = false := by
  suffices h : ∀ (n : Nat) (l : List Char), l.length ≤ n →
      hasLtThenGt (removeTags l) = false from h l.length l le_rfl
  intro n
  induction n with
  | zero =>
    intro l hl
    have : l = [] := List.eq_nil_of_length_eq_zero (Nat.le_zero.mp hl)
    subst this
    simp [removeTags_nil, hasLtThenGt]
  | succ n ih =>
    intro l hl
    match l with
    | [] => simp [removeTags_nil, hasLtThenGt]
    | c :: cs =>
      simp only [List.length_cons] at hl
      rw [removeTags_cons]
      by_cases hc : c = '<'
      · simp only [hc, if_true]
        cases hs : splitAtGt cs with
        | some after =>
          have h₁ := splitAtGt_length hs
          exact ih after (by omega)
        | none =>
          have hmem : '>' ∉ cs := splitAtGt_eq_none.mp hs
          have hsub : '>' ∉ removeTags cs := fun hx =>
            hmem ((removeTags_sublist cs).subset hx)
          simp only [hasLtThenGt_cons, Bool.or_eq_false_iff]
          constructor
          · rw [Bool.and_eq_false_iff]
            right
            rw [Bool.eq_false_iff]
            intro hx
            exact hsub (hasGt_iff.mp hx)
          · exact ih cs (by omega)
      · simp only [hc, if_false, hasLtThenGt_cons, Bool.or_eq_false_iff]
        constructor
        · simp [hc]
        · exact ih cs (by omega)

theorem removeTags_eq_self {l : List Char} (h : hasLtThenGt l = false) :
    removeTags l = l := by
  induction l with
  | nil => exact removeTags_nil
  | cons c cs ih =>
    rw [removeTags_cons]
    have htail := hasLtThenGt_tail h
    by_cases hc : c = '<'
    · subst hc
      simp only [hasLtThenGt_cons, Bool.or_eq_false_iff, Bool.and_eq_false_iff] at h
      have : hasGt cs = false := by
        rcases h.1 with h' | h'
        · simp at h'
        · exact h'
      have hnone : splitAtGt cs = none := by
        rw [splitAtGt_eq_none]
        intro hm
        rw [hasGt_iff.mpr hm] at this
        cases this
      simp only [if_true, hnone]
      rw [ih htail]
    · simp only [hc, if_false]
      rw [ih htail]

theorem splitAtGt_mem {l a : List Char} (h : splitAtGt l = some a) : '>' ∈ l := by
  by_contra hm
  rw [splitAtGt_eq_none.mpr hm] at h
  cases h

theorem ciMatch_lt {c : Char} (h : ciMatch '<' c = true) : c = '<' := by
  simp only [ciMatch, Bool.or_eq_true, Bool.and_eq_true, decide_eq_true_eq] at h
  rcases h with h | ⟨⟨h', _⟩, _⟩
  · exact h
  · exact absurd h' (by decide)

theorem matchesCi_style_head {c : Char} {cs : List Char}
    (h : matchesCi ("<style".toList) (c :: cs) = true) : c = '<' := by
  have : ("<style".toList) = '<' :: "style".toList := rfl
  rw [this] at h
  simp only [matchesCi, Bool.and_eq_true] at h
  exact ciMatch_lt h.1

theorem styleMatch_eq_none {l : List Char} (h : hasLtThenGt l = false) :
    styleMatch l = none := by
  rw [styleMatch]
  split
  · next hm =>
    match l with
    | [] => cases hm
    | c :: cs =>
      have hcc : c = '<' := matchesCi_style_head hm
      subst hcc
      cases hsp : splitAtGt (('<' :: cs).drop 6) with
      | none => rfl
      | some a =>
        exfalso
        have h₁ : '>' ∈ ('<' :: cs).drop 6 := splitAtGt_mem hsp
        have h₂ : '>' ∈ '<' :: cs := List.drop_subset _ _ h₁
        have h₃ : '>' ∈ cs := by
          cases List.mem_cons.mp h₂ with
          | inl h' => cases h'
          | inr h' => exact h'
        simp only [hasLtThenGt_cons, Bool.or_eq_false_iff,
          Bool.and_eq_false_iff] at h
        rcases h.1 with h' | h'
        · simp at h'
        · rw [hasGt_iff.mpr h₃] at h'
          cases h'
  · rfl

theorem removeStyle_eq_self {l : List Char} (h : hasLtThenGt l = false) :
    removeStyle l = l := by
  induction l with
  | nil => exact removeStyle_nil
  | cons c cs ih =>
    rw [removeStyle_cons, styleMatch_eq_none h]
    rw [ih (hasLtThenGt_tail h)]

theorem mem_removeMd {a : Char} {l : List Char} (h : a ∈ removeMd l) :
    isMdMark a = false ∧ a ∈ l := by
  unfold removeMd at h
  have := List.mem_filter.mp h
  refine ⟨?_, this.1⟩
  have := this.2
  simp only [Bool.not_eq_true'] at this
  exact this

theorem removeMd_eq_self {l : List Char} (h : ∀ a ∈ l, isMdMark a = false) :
    removeMd l = l := by
  unfold removeMd
  rw [List.filter_eq_self]
  intro a ha
  simp only [Bool.not_eq_true']
  exact h a ha

theorem hasLtThenGt_removeMd {l : List Char} (h : hasLtThenGt l = false) :
    hasLtThenGt (removeMd l) = false :=
  hasLtThenGt_of_sublist (List.filter_sublist l) h

/-! ### Whitespace normalisation

`collapseWs` output: every whitespace character is a single `' '` and no
whitespace character is followed by another.  `wsNormalized` captures
exactly that shape, and `collapseWs` is the identity on it. -/

/-- The list is empty or starts with a non-whitespace character. -/
def headNotWs : List Char → Bool
  | [] => true
  | d :: _ => !isJsWs d

/-- Every whitespace character in the list is `' '` and is not followed
by another whitespace character (i.e. no whitespace runs and only plain
spaces). -/
def wsNormalized : List Char → Bool
  | [] => true
  | c :: rest => (!isJsWs c || (c = ' ' && headNotWs rest)) && wsNormalized rest

theorem wsNormalized_tail {c : Char} {rest : List Char}
    (h : wsNormalized (c :: rest) = true) : wsNormalized rest = true := by
  simp only [wsNormalized, Bool.and_eq_true] at h
  exact h.2

theorem headNotWs_dropWhile (l : List Char) :
    headNotWs (l.dropWhile isJsWs) = true := by
  induction l with
  | nil => rfl
  | cons c cs ih =>
    rw [List.dropWhile_cons]
    by_cases hc : isJsWs c
    · rw [if_pos hc]
      exact ih
    · rw [if_neg hc]
      simp [headNotWs, Bool.not_eq_true] at hc ⊢
      exact hc

theorem mem_collapseWs {a : Char} : ∀ l : List Char,
    a ∈ collapseWs l → a = ' ' ∨ a ∈ l := by
  suffices h : ∀ (n : Nat) (l : List Char), l.length ≤ n →
      a ∈ collapseWs l → a = ' ' ∨ a ∈ l by
    intro l
    exact h l.length l le_rfl
  intro n
  induction n with
  | zero =>
    intro l hl
    have : l = [] := List.eq_nil_of_length_eq_zero (Nat.le_zero.mp hl)
    subst this
    simp [collapseWs_nil]
  | succ n ih =>
    intro l hl hm
    match l with
    | [] => simp [collapseWs_nil] at hm
    | c :: cs =>
      simp only [List.length_cons] at hl
      rw [collapseWs_cons] at hm
      by_cases hc : isJsWs c
      · rw [if_pos hc, List.mem_cons] at hm
        rcases hm with h₁ | h₁
        · exact Or.inl h₁
        · have hdw : (cs.dropWhile isJsWs).length ≤ cs.length :=
            (List.dropWhile_sublist _).length_le
          rcases ih (cs.dropWhile isJsWs) (by omega) h₁ with h₂ | h₂
          · exact Or.inl h₂
          · exact Or.inr (List.mem_cons_of_mem c
              ((List.dropWhile_sublist isJsWs).subset h₂))
      · rw [if_neg hc, List.mem_cons] at hm
        rcases hm with h₁ | h₁
        · exact Or.inr (by simp [h₁])
        · rcases ih cs (by omega) h₁ with h₂ | h₂
          · exact Or.inl h₂
          · exact Or.inr (List.mem_cons_of_mem c h₂)

theorem filter_nonWs_dropWhile (l : List Char) :
    (l.dropWhile isJsWs).filter (fun c => !isJsWs c) =
      l.filter (fun c => !isJsWs c) := by
  induction l with
  | nil => rfl
  | cons c cs ih =>
    rw [List.dropWhile_cons]
    by_cases hc : isJsWs c
    · rw [if_pos hc, ih, List.filter_cons]
      simp [hc]
    · rw [if_neg hc]

theorem collapseWs_filter_nonWs : ∀ l : List Char,
    (collapseWs l).filter (fun c => !isJsWs c) =
      l.filter (fun c => !isJsWs c) := by
  suffices h : ∀ (n : Nat) (l : List Char), l.length ≤ n →
      (collapseWs l).filter (fun c => !isJsWs c) =
        l.filter (fun c => !isJsWs c) by
    intro l
    exact h l.length l le_rfl
  intro n
  induction n with
  | zero =>
    intro l hl
    have : l = [] := List.eq_nil_of_length_eq_zero (Nat.le_zero.mp hl)
    subst this
    simp [collapseWs_nil]
  | succ n ih =>
    intro l hl
    match l with
    | [] => simp [collapseWs_nil]
    | c :: cs =>
      simp only [List.length_cons] at hl
      rw [collapseWs_cons]
      by_cases hc : isJsWs c
      · rw [if_pos hc]
        have hdw : (cs.dropWhile isJsWs).length ≤ cs.length :=
          (List.dropWhile_sublist _).length_le
        rw [List.filter_cons, List.filter_cons]
        simp only [hc, show isJsWs ' ' = true from rfl, Bool.not_true,
          Bool.false_eq_true, if_false]
        rw [ih (cs.dropWhile isJsWs) (by omega), filter_nonWs_dropWhile]
      · rw [if_neg hc]
        rw [List.filter_cons, List.filter_cons]
        rw [Bool.not_eq_true] at hc
        simp only [hc, Bool.not_false, if_true]
        rw [ih cs (by omega)]

theorem hasLtThenGt_collapseWs {l : List Char} (h : hasLtThenGt l = false) :
    hasLtThenGt (collapseWs l) = false := by
  rw [Bool.eq_false_iff]
  intro htrue
  have hsub := hasLtThenGt_iff_sublist.mp htrue
  have hfil := hsub.filter (fun c => !isJsWs c)
  have hsub₂ : List.Sublist ['<', '>'] (l.filter (fun c => !isJsWs c)) := by
    have he : (['<', '>'] : List Char).filter (fun c => !isJsWs c) =
        ['<', '>'] := by decide
    rw [he, collapseWs_filter_nonWs] at hfil
    exact hfil
  have := hsub₂.trans (List.filter_sublist l)
  rw [hasLtThenGt_iff_sublist.mpr this] at h
  cases h

theorem headNotWs_collapseWs {l : List Char} (h : headNotWs l = true) :
    headNotWs (collapseWs l) = true := by
  match l with
  | [] => rfl
  | c :: cs =>
    have hcb : isJsWs c = false := by
      simpa [headNotWs, Bool.not_eq_true] using h
    rw [collapseWs_cons, if_neg (by simp [hcb])]
    simp [headNotWs, hcb]

theorem wsNormalized_collapseWs : ∀ l : List Char,
    wsNormalized (collapseWs l) = true := by
  suffices h : ∀ (n : Nat) (l : List Char), l.length ≤ n →
      wsNormalized (collapseWs l) = true by
    intro l
    exact h l.length l le_rfl
  intro n
  induction n with
  | zero =>
    intro l hl
    have : l = [] := List.eq_nil_of_length_eq_zero (Nat.le_zero.mp hl)
    subst this
    rfl
  | succ n ih =>
    intro l hl
    match l with
    | [] => rfl
    | c :: cs =>
      simp only [List.length_cons] at hl
      rw [collapseWs_cons]
      have hdw : (cs.dropWhile isJsWs).length ≤ cs.length :=
        (List.dropWhile_sublist _).length_le
      by_cases hc : isJsWs c
      · rw [if_pos hc]
        simp only [wsNormalized, Bool.and_eq_true]
        refine ⟨?_, ih (cs.dropWhile isJsWs) (by omega)⟩
        have hh := headNotWs_collapseWs (headNotWs_dropWhile cs)
        simp [hh]
      · rw [if_neg hc]
        simp only [wsNormalized, Bool.and_eq_true]
        refine ⟨?_, ih cs (by omega)⟩
        rw [Bool.not_eq_true] at hc
        simp [hc]

theorem collapseWs_eq_self {l : List Char} (h : wsNormalized l = true) :
    collapseWs l = l := by
  induction l with
  | nil => rfl
  | cons c cs ih =>
    rw [collapseWs_cons]
    have htail := wsNormalized_tail h
    simp only [wsNormalized, Bool.and_eq_true, Bool.or_eq_true,
      Bool.not_eq_true', Bool.and_eq_true, decide_eq_true_eq] at h
    by_cases hc : isJsWs c
    · rw [if_pos hc]
      rcases h.1 with h₁ | ⟨hsp, hhead⟩
      · rw [h₁] at hc
        cases hc
      · subst hsp
        have hdw : cs.dropWhile isJsWs = cs := by
          match cs with
          | [] => rfl
          | d :: ds =>
            simp only [headNotWs, Bool.not_eq_true'] at hhead
            rw [List.dropWhile_cons, if_neg (by simp [hhead])]
        rw [hdw, ih htail]
    · rw [if_neg hc, ih htail]

/-! ### Trimming -/

theorem dropTrailWs_append (l : List Char) : ∃ t, dropTrailWs l ++ t = l := by
  obtain ⟨t, ht⟩ := List.dropWhile_suffix (l := l.reverse) isJsWs
  refine ⟨t.reverse, ?_⟩
  unfold dropTrailWs
  have : (t ++ l.reverse.dropWhile isJsWs).reverse = l.reverse.reverse := by
    rw [ht]
  rw [List.reverse_append, List.reverse_reverse] at this
  rw [this]

theorem dropTrailWs_sublist (l : List Char) :
    List.Sublist (dropTrailWs l) l := by
  obtain ⟨t, ht⟩ := dropTrailWs_append l
  calc List.Sublist (dropTrailWs l) (dropTrailWs l ++ t) :=
        List.sublist_append_left _ _
    _ = l := ht

theorem trimWs_sublist (l : List Char) : List.Sublist (trimWs l) l :=
  (dropTrailWs_sublist _).trans (List.dropWhile_sublist _)

theorem wsNormalized_append_left {xs ys : List Char}
    (h : wsNormalized (xs ++ ys) = true) : wsNormalized xs = true := by
  induction xs with
  | nil => rfl
  | cons c xs ih =>
    rw [List.cons_append] at h
    simp only [wsNormalized, Bool.and_eq_true, Bool.or_eq_true,
      Bool.and_eq_true] at h ⊢
    refine ⟨?_, ih h.2⟩
    rcases h.1 with h₁ | ⟨h₁, h₂⟩
    · exact Or.inl h₁
    · refine Or.inr ⟨h₁, ?_⟩
      match xs with
      | [] => rfl
      | d :: _ => exact h₂

theorem wsNormalized_dropWhile {l : List Char} (p : Char → Bool)
    (h : wsNormalized l = true) : wsNormalized (l.dropWhile p) = true := by
  induction l with
  | nil => rfl
  | cons c cs ih =>
    rw [List.dropWhile_cons]
    by_cases hc : p c
    · rw [if_pos hc]
      exact ih (wsNormalized_tail h)
    · rw [if_neg hc]
      exact h

theorem wsNormalized_trimWs {l : List Char} (h : wsNormalized l = true) :
    wsNormalized (trimWs l) = true := by
  have h₁ := wsNormalized_dropWhile isJsWs h
  obtain ⟨t, ht⟩ := dropTrailWs_append (l.dropWhile isJsWs)
  rw [← ht] at h₁
  exact wsNormalized_append_left h₁

theorem wsNormalized_take {l : List Char} (n : Nat)
    (h : wsNormalized l = true) : wsNormalized (l.take n) = true := by
  have := List.take_append_drop n l
  rw [← this] at h
  exact wsNormalized_append_left h

theorem wsNormalized_append_ellipsis {xs : List Char}
    (h : wsNormalized xs = true) :
    wsNormalized (xs ++ ellipsisMarker) = true := by
  induction xs with
  | nil => decide
  | cons c xs ih =>
    rw [List.cons_append]
    simp only [wsNormalized, Bool.and_eq_true, Bool.or_eq_true,
      Bool.and_eq_true] at h ⊢
    refine ⟨?_, ih h.2⟩
    rcases h.1 with h₁ | ⟨h₁, h₂⟩
    · exact Or.inl h₁
    · refine Or.inr ⟨h₁, ?_⟩
      match xs with
      | [] => decide
      | d :: _ => exact h₂

theorem headNotWs_append_left {xs ys : List Char}
    (h : headNotWs (xs ++ ys) = true) (hne : xs ≠ []) :
    headNotWs xs = true := by
  match xs with
  | [] => exact absurd rfl hne
  | c :: x =>
    rw [List.cons_append] at h
    exact h

theorem headNotWs_dropTrailWs {l : List Char} (h : headNotWs l = true) :
    headNotWs (dropTrailWs l) = true := by
  obtain ⟨t, ht⟩ := dropTrailWs_append l
  cases hd : dropTrailWs l with
  | nil => rfl
  | cons c x =>
    rw [hd] at ht
    rw [← ht] at h
    exact headNotWs_append_left h (by simp)

theorem headNotWs_trimWs (l : List Char) : headNotWs (trimWs l) = true :=
  headNotWs_dropTrailWs (headNotWs_dropWhile l)

theorem headNotWs_trimWs_reverse (l : List Char) :
    headNotWs (trimWs l).reverse = true := by
  show headNotWs (dropTrailWs (l.dropWhile isJsWs)).reverse = true
  unfold dropTrailWs
  rw [List.reverse_reverse]
  exact headNotWs_dropWhile _

theorem dropWhile_eq_self_of_headNotWs {l : List Char}
    (h : headNotWs l = true) : l.dropWhile isJsWs = l := by
  match l with
  | [] => rfl
  | c :: cs =>
    simp only [headNotWs, Bool.not_eq_true'] at h
    rw [List.dropWhile_cons, if_neg (by simp [h])]

theorem trimWs_eq_self {l : List Char} (h₁ : headNotWs l = true)
    (h₂ : headNotWs l.reverse = true) : trimWs l = l := by
  unfold trimWs dropTrailWs
  rw [dropWhile_eq_self_of_headNotWs h₁,
    dropWhile_eq_self_of_headNotWs h₂, List.reverse_reverse]

/-! ### The cleaned text is a fixed point of the cleaning pipeline -/

theorem hasGt_ellipsis : hasGt ellipsisMarker = false := by decide

theorem hasLtThenGt_append_ellipsis {xs : List Char}
    (h : hasLtThenGt xs = false) :
    hasLtThenGt (xs ++ ellipsisMarker) = false := by
  induction xs with
  | nil => decide
  | cons c xs ih =>
    rw [List.cons_append]
    simp only [hasLtThenGt_cons, Bool.or_eq_false_iff,
      Bool.and_eq_false_iff] at h ⊢
    have hgt : hasGt (xs ++ ellipsisMarker) = hasGt xs := by
      unfold hasGt
      rw [List.any_append]
      have hd : (ellipsisMarker.any fun d => decide (d = '>')) = false := by
        decide
      rw [hd, Bool.or_false]
    constructor
    · rw [hgt]
      exact h.1
    · exact ih h.2

theorem cleanedText_props (x : List Char) :
    hasLtThenGt (cleanedText x) = false ∧
    wsNormalized (cleanedText x) = true ∧
    (∀ a ∈ cleanedText x, isMdMark a = false) ∧
    headNotWs (cleanedText x) = true ∧
    headNotWs (cleanedText x).reverse = true := by
  unfold cleanedText
  set y₂ := removeTags (removeStyle x) with hy₂
  set y₃ := removeMd y₂ with hy₃
  set y₄ := collapseWs y₃ with hy₄
  have h₂ : hasLtThenGt y₂ = false := hasLtThenGt_removeTags _
  have h₃ : hasLtThenGt y₃ = false := hasLtThenGt_removeMd h₂
  have h₄ : hasLtThenGt y₄ = false := hasLtThenGt_collapseWs h₃
  refine ⟨hasLtThenGt_of_sublist (trimWs_sublist y₄) h₄,
    wsNormalized_trimWs (wsNormalized_collapseWs y₃), ?_,
    headNotWs_trimWs y₄, headNotWs_trimWs_reverse y₄⟩
  intro a ha
  have ha₄ : a ∈ y₄ := (trimWs_sublist y₄).subset ha
  rcases mem_collapseWs y₃ ha₄ with h | h
  · subst h
    decide
  · exact (mem_removeMd h).1

theorem cleanedText_eq_self {l : List Char}
    (h₁ : hasLtThenGt l = false) (h₂ : wsNormalized l = true)
    (h₃ : ∀ a ∈ l, isMdMark a = false) (h₄ : headNotWs l = true)
    (h₅ : headNotWs l.reverse = true) : cleanedText l = l := by
  unfold cleanedText
  rw [removeStyle_eq_self h₁, removeTags_eq_self h₁, removeMd_eq_self h₃,
    collapseWs_eq_self h₂, trimWs_eq_self h₄ h₅]

theorem extractDigest_eq (x : List Char) :
    extractDigest x =
      if (cleanedText x).length > 60 then
        (cleanedText x).take 60 ++ ellipsisMarker
      else cleanedText x := rfl

theorem headNotWs_take_append {l ys : List Char} {n : Nat}
    (h : headNotWs l = true) (hl : l ≠ []) (hn : 0 < n) :
    headNotWs (l.take n ++ ys) = true := by
  match l, n with
  | [], _ => exact absurd rfl hl
  | c :: cs, m + 1 =>
    rw [List.take_succ_cons, List.cons_append]
    exact h

theorem headNotWs_reverse_append_ellipsis (xs : List Char) :
    headNotWs (xs ++ ellipsisMarker).reverse = true := by
  rw [List.reverse_append]
  rfl

theorem extractDigest_props (x : List Char) :
    hasLtThenGt (extractDigest x) = false ∧
    wsNormalized (extractDigest x) = true ∧
    (∀ a ∈ extractDigest x, isMdMark a = false) ∧
    headNotWs (extractDigest x) = true ∧
    headNotWs (extractDigest x).reverse = true := by
  obtain ⟨h₁, h₂, h₃, h₄, h₅⟩ := cleanedText_props x
  rw [extractDigest_eq]
  by_cases hlen : (cleanedText x).length > 60
  · rw [if_pos hlen]
    have hne : cleanedText x ≠ [] := by
      intro hnil
      rw [hnil] at hlen
      simp at hlen
    refine ⟨?_, ?_, ?_, ?_, ?_⟩
    · exact hasLtThenGt_append_ellipsis
        (hasLtThenGt_of_sublist (List.take_sublist 60 _) h₁)
    · exact wsNormalized_append_ellipsis (wsNormalized_take 60 h₂)
    · intro a ha
      rcases List.mem_append.mp ha with h | h
      · exact h₃ a ((List.take_sublist 60 _).subset h)
      · have hdot : a = '.' := by
          simpa [ellipsisMarker] using h
        subst hdot
        decide
    · exact headNotWs_take_append h₄ hne (by omega)
    · exact headNotWs_reverse_append_ellipsis _
  · rw [if_neg hlen]
    exact ⟨h₁, h₂, h₃, h₄, h₅⟩

/-- Length of the take-60 slice when the cleaned text is longer than 60. -/
theorem length_take60 {x : List Char} (h : (cleanedText x).length > 60) :
    ((cleanedText x).take 60).length = 60 := by
  rw [List.length_take]
  omega

/-- C9: `extractDigest` (a plain function of its input, hence
deterministic and pure) is idempotent on its own range, and its output
contains no substring matching a markup tag `<...>`, none of the
lightweight markup punctuation characters `#`, `*`, `` ` ``, and no
whitespace runs (every whitespace character in the output is a single
space not followed by whitespace). -/
theorem extractDigest_idempotent (x : List Char) :
    extractDigest (extractDigest x) = extractDigest x ∧
    hasLtThenGt (extractDigest x) = false ∧
    (∀ a ∈ extractDigest x, isMdMark a = false) ∧
    wsNormalized (extractDigest x) = true := by
  obtain ⟨h₁, h₂, h₃, h₄, h₅⟩ := extractDigest_props x
  refine ⟨?_, h₁, h₃, h₂⟩
  have hfix : cleanedText (extractDigest x) = extractDigest x :=
    cleanedText_eq_self h₁ h₂ h₃ h₄ h₅
  rw [extractDigest_eq (extractDigest x), hfix]
  by_cases hlen : (cleanedText x).length > 60
  · have hout : extractDigest x = (cleanedText x).take 60 ++ ellipsisMarker := by
      rw [extractDigest_eq, if_pos hlen]
    have hlen₂ : (extractDigest x).length = 63 := by
      rw [hout, List.length_append, length_take60 hlen]
      rfl
    rw [if_pos (by omega)]
    rw [hout]
    rw [List.take_append_of_le_length (by rw [length_take60 hlen]),
      List.take_take]
    rfl
  · have hout : extractDigest x = cleanedText x := by
      rw [extractDigest_eq, if_neg hlen]
    rw [if_neg (by rw [hout]; exact hlen)]

/-- C1 counterexample: on an input of 61 letters `a` the cleaned text has
61 characters, so the code truncates to 60 and appends the 3-character
ellipsis, producing 63 characters — the claimed bound of 60 characters
including the ellipsis marker is violated. -/
theorem extractDigest_length_claim_false :
    ¬ ((extractDigest (List.replicate 61 'a')).length ≤ 60) := by decide

/-- C1 (amended): for every input, `extractDigest` returns at most 63
characters: when the cleaned text exceeds 60 characters the result is
exactly the first 60 characters followed by the 3-character ellipsis
marker `...` (63 characters in total), and otherwise it is the cleaned
text itself, of at most 60 characters. -/
theorem extractDigest_length_bound (x : List Char) :
    (extractDigest x).length ≤ 63 ∧
    ((cleanedText x).length > 60 →
      extractDigest x = (cleanedText x).take 60 ++ ellipsisMarker ∧
      (extractDigest x).length = 63) ∧
    ((cleanedText x).length ≤ 60 →
      extractDigest x = cleanedText x ∧ (extractDigest x).length ≤ 60) := by
  by_cases hlen : (cleanedText x).length > 60
  · have hout : extractDigest x = (cleanedText x).take 60 ++ ellipsisMarker := by
      rw [extractDigest_eq, if_pos hlen]
    have hlen₂ : (extractDigest x).length = 63 := by
      rw [hout, List.length_append, length_take60 hlen]
      rfl
    exact ⟨by omega, fun _ => ⟨hout, hlen₂⟩, fun h => absurd h (by omega)⟩
  · have hout : extractDigest x = cleanedText x := by
      rw [extractDigest_eq, if_neg hlen]
    refine ⟨?_, fun h => absurd h hlen, fun h => ⟨hout, ?_⟩⟩
    · rw [hout]; omega
    · rw [hout]; omega

/-- Witness for the amended C1 at a concrete input: 61 letters `a`. -/
theorem extractDigest_length_bound_witness :
    (extractDigest (List.replicate 61 'a')).length ≤ 63 ∧
    extractDigest (List.replicate 61 'a') =
      (cleanedText (List.replicate 61 'a')).take 60 ++ ellipsisMarker ∧
    (extractDigest (List.replicate 61 'a')).length = 63 := by
  have h := extractDigest_length_bound (List.replicate 61 'a')
  have h₂ := h.2.1 (by decide)
  exact ⟨h.1, h₂.1, h₂.2⟩

/-! ## `WeChatStatus.getStatusText` (src/unnamed/part_001, lines 148-158)

```js
static getStatusText(status) {
  const statusMap = {
    0: '🟡 发布中',
    1: '🟢 发布成功',
    2: '🔴 发布失败',
    3: '🟠 审核中',
    4: '🔴 审核失败'
  };
  return statusMap[status] || `🤔 未知状态(${status})`;
}
```
-/

def getStatusText (status : Int) : String :=
  if status = 0 then "🟡 发布中"
  else if status = 1 then "🟢 发布成功"
  else if status = 2 then "🔴 发布失败"
  else if status = 3 then "🟠 审核中"
  else if status = 4 then "🔴 审核失败"
  else "🤔 未知状态(" ++ toString status ++ ")"

/-- Modelled from the spec: the `StatusSnapshot.publishState` enumeration
of §3, extended by the explicit `unknown` fallback of §4.5. -/
inductive PublishState where
  | pending
  | published
  | failed
  | underReview
  | reviewFailed
  | unknown
deriving DecidableEq

/-- Modelled from the spec: "maps platform status codes 0-4 to the
`StatusSnapshot.publishState` enum with an explicit unknown fallback for
unrecognized codes". -/
def publishStateOf (status : Int) : PublishState :=
  if status = 0 then PublishState.pending
  else if status = 1 then PublishState.published
  else if status = 2 then PublishState.failed
  else if status = 3 then PublishState.underReview
  else if status = 4 then PublishState.reviewFailed
  else PublishState.unknown

/-- The status text the code renders for each abstract publish state
(the unknown state embeds the numeric code). -/
def stateText (st : PublishState) (status : Int) : String :=
  match st with
  | PublishState.pending => "🟡 发布中"
  | PublishState.published => "🟢 发布成功"
  | PublishState.failed => "🔴 发布失败"
  | PublishState.underReview => "🟠 审核中"
  | PublishState.reviewFailed => "🔴 审核失败"
  | PublishState.unknown => "🤔 未知状态(" ++ toString status ++ ")"

/-- C8: the status-text mapping is a total function refining the spec's
state mapping: codes 0-4 render the pending / published / failed /
under-review / review-failed texts respectively, and every other code is
rendered through the explicit `unknown` fallback (no exception path
exists: `getStatusText` is a total function). -/
theorem getStatusText_refines (s : Int) :
    getStatusText s = stateText (publishStateOf s) s ∧
    (publishStateOf s = PublishState.unknown ↔
      s ∉ ([0, 1, 2, 3, 4] : List Int)) := by
  constructor
  · unfold getStatusText publishStateOf stateText
    split_ifs <;> rfl
  · unfold publishStateOf
    split_ifs with h0 h1 h2 h3 h4
    · subst h0; simp
    · subst h1; simp
    · subst h2; simp
    · subst h3; simp
    · subst h4; simp
    · simp [h0, h1, h2, h3, h4]

/-! ## `WeChatAPI.getAccessToken` (src/unnamed/part_000, lines 26-67)

The instance state is `{accessToken, tokenExpireTime}`; the HTTP GET on
`/cgi-bin/token` is modelled by a response oracle.  `NetResult.ok` is a
transport-level success (HTTP 2xx) carrying the response body;
`NetResult.httpErr` is an axios error with `error.response` present
(carrying the response body and `error.message`); `NetResult.netErr` is a
transport failure with no response.  The list records the network calls
issued. -/

/-- Body of the token endpoint response. -/
structure TokenData where
  access_token : Option String
  expires_in : Int
  errmsg : Option String

/-- Outcome of one axios call: transport success with body, HTTP error
with body and message, or network error with message only. -/
inductive NetResult (α : Type) where
  | ok (data : α)
  | httpErr (data : α) (message : String)
  | netErr (message : String)

/-- Instance state of a `WeChatAPI` object (constructor, lines 12-19). -/
structure WAState where
  appId : String
  appSecret : String
  accessToken : Option String
  tokenExpireTime : Int
deriving DecidableEq

/-- One network call issued by the pipeline; `draftCreate` records the
`thumb_media_id` field included in the draft payload (or `none`). -/
inductive NetCall where
  | tokenFetch
  | coverUpload
  | draftCreate (thumb : Option String)
  | publishSubmit
  | newsMediaCreate
  | previewSend
  | statusFetch
deriving DecidableEq

/-- The refresh path of `getAccessToken` (lines 35-66): one GET; on a
body with a truthy `access_token` the token is cached with
`tokenExpireTime = now + (expires_in - 60) * 1000` (line 49); a body
without one raises `获取Access Token失败: ...` inside the `try`, which the
function's own `catch` re-wraps as `Access Token网络请求失败: ...` because a
locally thrown `Error` has no `.response`; an axios error with a response
is wrapped as `Access Token请求失败`, one without as
`Access Token网络请求失败`. -/
def tokenRefresh (st : WAState) (now : Int) (resp : NetResult TokenData) :
    Except String String × WAState × List NetCall :=
  match resp with
  | NetResult.ok d =>
    match d.access_token with
    | some t =>
      if t ≠ "" then
        (Except.ok t,
          { st with accessToken := some t,
                    tokenExpireTime := now + (d.expires_in - 60) * 1000 },
          [NetCall.tokenFetch])
      else
        (Except.error ("Access Token网络请求失败: 获取Access Token失败: " ++
            jsOr d.errmsg "未知错误"), st, [NetCall.tokenFetch])
    | none =>
      (Except.error ("Access Token网络请求失败: 获取Access Token失败: " ++
          jsOr d.errmsg "未知错误"), st, [NetCall.tokenFetch])
  | NetResult.httpErr d m =>
    (Except.error ("Access Token请求失败: " ++ jsOr d.errmsg m), st,
      [NetCall.tokenFetch])
  | NetResult.netErr m =>
    (Except.error ("Access Token网络请求失败: " ++ m), st, [NetCall.tokenFetch])

/-- `WeChatAPI.getAccessToken` (lines 26-67): return the cached token
when `this.accessToken` is truthy and `now < this.tokenExpireTime`
(line 30), otherwise refresh. -/
def getAccessToken (st : WAState) (now : Int) (resp : NetResult TokenData) :
    Except String String × WAState × List NetCall :=
  match st.accessToken with
  | some tok =>
    if tok ≠ "" ∧ now < st.tokenExpireTime then (Except.ok tok, st, [])
    else tokenRefresh st now resp
  | none => tokenRefresh st now resp

/-- C4 counterexample: with a server-reported `expires_in` of 30 seconds,
the refresh at time 0 succeeds and hands out the fresh token even though
time 0 is within 60 seconds of the server-reported expiry (30000 ms), so
"a token is never returned within 60 seconds of its server-reported
expiry" fails as a universal statement (the stored expiry even becomes
negative: `0 + (30 - 60) * 1000 = -30000`). -/
theorem getAccessToken_margin_claim_false :
    getAccessToken ⟨"wxAPPID", "secret", none, 0⟩ 0
        (NetResult.ok ⟨some "TOKEN", 30, none⟩) =
      (Except.ok "TOKEN", ⟨"wxAPPID", "secret", some "TOKEN", -30000⟩,
        [NetCall.tokenFetch]) ∧
    ¬ ((0 : Int) + 60000 ≤ 0 + 30 * 1000) := by
  constructor
  · rfl
  · decide

/-- C4 (amended): (1) every request issued while the cached token is
truthy and the current time is before the stored expiry returns the
identical cached token with no network call and unchanged state; (2) a
request at or after the stored expiry performs exactly one refresh call
and stores the new value with expiry `now + (serverTtl - 60 s)`; (3) any
request served *from the cache* after a refresh at `t₀` with server ttl
`ttl` happens more than 60 seconds before the server-reported expiry
`t₀ + ttl`·1000 — the fresh token handed out by the refresh itself enjoys
this margin only when `serverTtl` exceeds 60 seconds. -/
theorem getAccessToken_cache_spec (st : WAState) (now now' : Int)
    (resp resp' : NetResult TokenData) (tok t : String) (d : TokenData)
    (t₀ ttl : Int) :
    (st.accessToken = some tok → tok ≠ "" → now < st.tokenExpireTime →
      getAccessToken st now resp = (Except.ok tok, st, [])) ∧
    (st.tokenExpireTime ≤ now → resp = NetResult.ok d →
      d.access_token = some t → t ≠ "" →
      getAccessToken st now resp =
        (Except.ok t,
          { st with accessToken := some t,
                    tokenExpireTime := now + (d.expires_in - 60) * 1000 },
          [NetCall.tokenFetch])) ∧
    (st.tokenExpireTime = t₀ + (ttl - 60) * 1000 → st.accessToken = some tok →
      tok ≠ "" → now' < st.tokenExpireTime →
      (getAccessToken st now' resp').1 = Except.ok tok ∧
      now' + 60000 < t₀ + ttl * 1000) := by
  obtain ⟨aid, asec, atok, texp⟩ := st
  refine ⟨?_, ?_, ?_⟩
  · intro h₁ h₂ h₃
    simp only at h₁
    subst h₁
    simp only [getAccessToken]
    rw [if_pos ⟨h₂, h₃⟩]
  · intro h₁ h₂ h₃ h₄
    subst h₂
    simp only at h₁
    cases atok with
    | none =>
      simp only [getAccessToken, tokenRefresh, h₃]
      rw [if_pos h₄]
    | some tok' =>
      simp only [getAccessToken]
      rw [if_neg (by intro hcon; omega)]
      simp only [tokenRefresh, h₃]
      rw [if_pos h₄]
  · intro h₁ h₂ h₃ h₄
    simp only at h₁ h₂ h₄
    subst h₂
    constructor
    · simp only [getAccessToken]
      rw [if_pos ⟨h₃, h₄⟩]
    · omega

/-- Witness for the amended C4: a cache hit at time 1000 against expiry
5000, a refresh from the empty cache at time 0 with a 7200-second ttl,
and the safety margin for a cache hit on the refreshed state. -/
theorem getAccessToken_cache_spec_witness :
    getAccessToken ⟨"wx1", "s", some "TOK", 5000⟩ 1000 (NetResult.netErr "x") =
      (Except.ok "TOK", ⟨"wx1", "s", some "TOK", 5000⟩, []) ∧
    getAccessToken ⟨"wx1", "s", none, 0⟩ 0
        (NetResult.ok ⟨some "T2", 7200, none⟩) =
      (Except.ok "T2", ⟨"wx1", "s", some "T2", 7140000⟩,
        [NetCall.tokenFetch]) ∧
    (getAccessToken ⟨"wx1", "s", some "T2", 7140000⟩ 1000
        (NetResult.netErr "x")).1 = Except.ok "T2" ∧
    (1000 : Int) + 60000 < 0 + 7200 * 1000 := by
  have h₁ := (getAccessToken_cache_spec ⟨"wx1", "s", some "TOK", 5000⟩ 1000 0
    (NetResult.netErr "x") (NetResult.netErr "x") "TOK" "T2"
    ⟨some "T2", 7200, none⟩ 0 7200).1 rfl (by decide) (by decide)
  have h₂ := (getAccessToken_cache_spec ⟨"wx1", "s", none, 0⟩ 0 0
    (NetResult.ok ⟨some "T2", 7200, none⟩) (NetResult.netErr "x") "TOK" "T2"
    ⟨some "T2", 7200, none⟩ 0 7200).2.1 (by decide) rfl rfl (by decide)
  have h₃ := (getAccessToken_cache_spec ⟨"wx1", "s", some "T2", 7140000⟩ 0 1000
    (NetResult.netErr "x") (NetResult.netErr "x") "T2" "T2"
    ⟨some "T2", 7200, none⟩ 0 7200).2.2 (by decide) rfl (by decide) (by decide)
  exact ⟨h₁, h₂, h₃.1, h₃.2⟩

/-! ## Substring test (`String.prototype.includes`) -/

/-- The pattern is a prefix of the subject. -/
def leadsWith : List Char → List Char → Bool
  | [], _ => true
  | _ :: _, [] => false
  | p :: ps, c :: cs => p = c && leadsWith ps cs

/-- The pattern occurs somewhere in the subject (`String.includes`). -/
def occursIn (pat : List Char) : List Char → Bool
  | [] => pat.isEmpty
  | c :: cs => leadsWith pat (c :: cs) || occursIn pat cs

/-- `s.includes(pat)`. -/
def strContains (s pat : String) : Bool := occursIn pat.data s.data

/-- `s.startsWith(pre)` (kernel-reducible list-based prefix test). -/
def jsStartsWith (s pre : String) : Bool := leadsWith pre.data s.data

theorem leadsWith_append (ys zs : List Char) :
    leadsWith ys (ys ++ zs) = true := by
  induction ys with
  | nil => rfl
  | cons y ys ih => simp [leadsWith, ih]

theorem occursIn_append (xs ys zs : List Char) :
    occursIn ys (xs ++ ys ++ zs) = true := by
  induction xs with
  | nil =>
    rw [List.nil_append]
    match ys with
    | [] =>
      match zs with
      | [] => rfl
      | c :: cs => simp [occursIn, leadsWith]
    | y :: ys' =>
      simp only [occursIn, List.cons_append, List.append_eq]
      have h := leadsWith_append (y :: ys') zs
      rw [List.cons_append] at h
      rw [h]
      rfl
  | cons x xs ih =>
    simp only [List.cons_append, occursIn, List.append_eq]
    rw [ih]
    simp

theorem strContains_mid (pre pat suf : String) :
    strContains (pre ++ pat ++ suf) pat = true := by
  unfold strContains
  rw [String.data_append, String.data_append]
  exact occursIn_append pre.data pat.data suf.data

/-! ## Response bodies and environment oracles

Each remote operation of `WeChatAPI` is modelled by a response oracle in
`PubEnv`; the oracle is held constant within one orchestrated operation
(each call site of the same endpoint sees the same response). -/

/-- `/cgi-bin/material/add_material` response body. -/
structure UploadData where
  media_id : Option String
  url : Option String
  errmsg : Option String

/-- `/cgi-bin/draft/add` response body. -/
structure DraftData where
  errcode : Option Int
  errmsg : Option String
  media_id : Option String

/-- `/cgi-bin/freepublish/submit` response body. -/
structure PublishData where
  errcode : Option Int
  errmsg : Option String
  publish_id : Option String
  msg_id : Option String

/-- Engagement counters inside a status response. -/
structure StatInfo where
  read_num : Option Int
  like_num : Option Int
  comment_num : Option Int
  share_num : Option Int

/-- One entry of `article_detail.item`. -/
structure StatusItem where
  article_id : Option String
  title : Option String
  author : Option String
  digest : Option String
  url : Option String
  publish_time : Option Int
  stat_info : Option StatInfo

/-- `article_detail` of a `/cgi-bin/freepublish/get` response; carries
both the item list read by `publishArticle` and the flat fields read by
`WeChatStatus.buildStatusMessage`. -/
structure ArticleDetail where
  count : Option Int
  item : Option (List StatusItem)
  title : Option String
  author : Option String
  publish_time : Option Int
  stat_info : Option StatInfo
  url : Option String

/-- `/cgi-bin/freepublish/get` response body. -/
structure StatusData where
  errcode : Option Int
  errmsg : Option String
  publish_status : Option Int
  article_id : Option String
  article_detail : Option ArticleDetail

/-- `/cgi-bin/message/mass/preview` response body. -/
structure PreviewData where
  errcode : Option Int
  errmsg : Option String
  msg_id : Option String

/-- `/cgi-bin/media/uploadnews` response body. -/
structure NewsData where
  media_id : Option String
  errmsg : Option String

/-- Outcome of the `fs.stat` call in `uploadCoverImage`: either the call
threw (`enoent` records whether `error.code === 'ENOENT'`) or it
succeeded with `isFile()` and `size`. -/
inductive FsStat where
  | statErr (enoent : Bool) (message : String)
  | statOk (isFile : Bool) (size : Nat)

/-- The four `Math.random()` draws of the test-mode status mock. -/
structure MockRand where
  r1 : Nat
  r2 : Nat
  r3 : Nat
  r4 : Nat

/-- Response oracles for one orchestrated operation. -/
structure PubEnv where
  tokenResp : NetResult TokenData
  fsStat : FsStat
  uploadResp : NetResult UploadData
  draftResp : NetResult DraftData
  publishResp : NetResult PublishData
  statusResp : NetResult StatusData
  newsResp : NetResult NewsData
  previewResp : NetResult PreviewData
  rand : MockRand

deriving instance DecidableEq for Except

/-- The publish/preview result object returned to the tool layer. -/
structure PublishResult where
  success : Bool
  publishId : Option String
  msgId : Option String
  articleUrl : Option String
  mediaId : Option String
deriving DecidableEq

/-- Arguments of `publishArticle` / `previewArticle` / `createNewsMedia`. -/
structure ArticleArgs where
  title : String
  content : String
  author : Option String
  thumbMediaId : Option String

/-! ## `WeChatAPI` operations (src/unnamed/part_000)

Every function returns `(outcome, new instance state, issued calls)`.
Errors are the final `Error.message` strings after each function's own
`try`/`catch` re-wrapping: a locally thrown `Error` has neither
`.response` nor `.code`, so it always lands in the generic wrap branch of
the enclosing `catch`. -/

/-- The JS guard `errcode && errcode !== 0` (lines 213, 233): an absent
or zero `errcode` is falsy and passes; any other code fails. -/
def errcodeBad : Option Int → Bool
  | some e => e ≠ 0
  | none => false

/-- `thumb_media_id` is included in the draft payload only when
`thumbMediaId && thumbMediaId !== null && thumbMediaId !== 'null'`
(lines 186-189). -/
def draftPayloadThumb : Option String → Option String
  | some t => if t ≠ "" ∧ t ≠ "null" then some t else none
  | none => none

/-- `WeChatAPI.uploadCoverImage` (lines 74-139).  The token is fetched
before the `try` (line 75), so token errors propagate unwrapped.  The
`fs.readFile`, `FormData` and content-type construction are not
observable in any claim and are subsumed in the upload call itself
(`readFile` failure modes coincide with the modelled `fs.stat` ones). -/
def uploadCoverImage (st : WAState) (now : Int) (imagePath : String)
    (env : PubEnv) : Except String String × WAState × List NetCall :=
  match getAccessToken st now env.tokenResp with
  | (Except.error e, st₁, calls) => (Except.error e, st₁, calls)
  | (Except.ok _, st₁, calls₀) =>
    match env.fsStat with
    | FsStat.statErr enoent m =>
      if enoent then (Except.error ("图片文件不存在: " ++ imagePath), st₁, calls₀)
      else (Except.error ("封面图上传请求失败: " ++ m), st₁, calls₀)
    | FsStat.statOk isFile size =>
      if !isFile then
        (Except.error "封面图上传请求失败: 指定路径不是有效文件", st₁, calls₀)
      else if size > 1024 * 1024 then
        (Except.error "封面图上传请求失败: 图片文件过大，请使用小于1MB的图片", st₁, calls₀)
      else
        let calls₁ := calls₀ ++ [NetCall.coverUpload]
        match env.uploadResp with
        | NetResult.ok d =>
          match d.media_id with
          | some m =>
            if m ≠ "" then (Except.ok m, st₁, calls₁)
            else (Except.error ("封面图上传请求失败: 封面图上传失败: " ++
                jsOr d.errmsg "未知错误"), st₁, calls₁)
          | none => (Except.error ("封面图上传请求失败: 封面图上传失败: " ++
              jsOr d.errmsg "未知错误"), st₁, calls₁)
        | NetResult.httpErr d m =>
          (Except.error ("封面图上传失败: " ++ jsOr d.errmsg m), st₁, calls₁)
        | NetResult.netErr m =>
          (Except.error ("封面图上传请求失败: " ++ m), st₁, calls₁)

/-- The test-mode status mock of `getPublishStatus` (lines 394-420). -/
def mockStatusData (msgId : String) (now : Int) (rand : MockRand) :
    StatusData :=
  { errcode := some 0, errmsg := some "ok", publish_status := some 1,
    article_id := none,
    article_detail := some
      { count := some 1,
        item := some [
          { article_id := some msgId,
            title := some "🚀 AI时代的内容创作革命：微信公众号自动发布MCP服务深度解析",
            author := some "郑伟 | PromptX技术",
            digest := some "AI工具日益普及的今天，如何让AI助手直接帮我们发布微信公众号文章？",
            url := some ("https://mp.weixin.qq.com/s/example_" ++ msgId),
            publish_time := some (Int.fdiv now 1000),
            stat_info := some
              { read_num := some (Int.ofNat (rand.r1 % 500) + 200),
                like_num := some (Int.ofNat (rand.r2 % 100) + 30),
                comment_num := some (Int.ofNat (rand.r3 % 20) + 5),
                share_num := some (Int.ofNat (rand.r4 % 50) + 10) } }],
        title := none, author := none, publish_time := none,
        stat_info := none, url := none } }

/-- `WeChatAPI.getPublishStatus` (lines 392-444).  `msgId` is the raw
value handed in (absent renders as `undefined` in templates).  The test
short-circuit fires when `msgId && msgId.toString().startsWith('test_')`.
The token is fetched before the `try` (line 422), so token errors
propagate unwrapped; the strict `errcode === 0` check throws inside the
`try` and is re-wrapped by the function's own `catch`. -/
def getPublishStatusReal (st : WAState) (now : Int) (env : PubEnv) :
    Except String StatusData × WAState × List NetCall :=
  match getAccessToken st now env.tokenResp with
  | (Except.error e, st₁, calls) => (Except.error e, st₁, calls)
  | (Except.ok _, st₁, calls₀) =>
    let calls₁ := calls₀ ++ [NetCall.statusFetch]
    match env.statusResp with
    | NetResult.ok d =>
      if d.errcode = some 0 then (Except.ok d, st₁, calls₁)
      else (Except.error ("查询发布状态请求失败: 查询发布状态失败: " ++
          optTemplate d.errmsg), st₁, calls₁)
    | NetResult.httpErr d m =>
      (Except.error ("查询发布状态失败: " ++ jsOr d.errmsg m), st₁, calls₁)
    | NetResult.netErr m =>
      (Except.error ("查询发布状态请求失败: " ++ m), st₁, calls₁)

def getPublishStatus (st : WAState) (now : Int) (msgId : Option String)
    (env : PubEnv) : Except String StatusData × WAState × List NetCall :=
  match msgId with
  | some m =>
    if m ≠ "" ∧ jsStartsWith m "test_" then
      (Except.ok (mockStatusData m now env.rand), st, [])
    else getPublishStatusReal st now env
  | none => getPublishStatusReal st now env

/-- The URL extraction of `publishArticle` (lines 250-253): first item's
`url` when `article_detail` is present and `item.length > 0`. -/
def extractedStatusUrl (d : StatusData) : Option String :=
  match d.article_detail with
  | some det =>
    match det.item with
    | some (it :: _) => it.url
    | some [] => none
    | none => none
  | none => none

/-- The fallback URL `https://mp.weixin.qq.com/s/${publishId}`
(lines 257, 262). -/
def fallbackUrl (publishId : Option String) : String :=
  "https://mp.weixin.qq.com/s/" ++ optTemplate publishId

/-- The URL-resolution step of `publishArticle` (lines 243-263): wait,
then one status query whose failure is caught locally; a falsy extracted
URL falls back to `fallbackUrl`. -/
def resolveArticleUrl (st : WAState) (now : Int) (publishId : Option String)
    (env : PubEnv) : String × WAState × List NetCall :=
  match getPublishStatus st now publishId env with
  | (Except.ok d, st₁, calls) =>
    match extractedStatusUrl d with
    | some u => (if u = "" then fallbackUrl publishId else u, st₁, calls)
    | none => (fallbackUrl publishId, st₁, calls)
  | (Except.error _, st₁, calls) => (fallbackUrl publishId, st₁, calls)

/-- `WeChatAPI.publishArticle` (lines 146-283): test short-circuit on a
`test_`-prefixed AppID; otherwise token (outside the `try`, so token
errors propagate unwrapped), draft create with embedded-errcode check,
publish submit with embedded-errcode check, then URL resolution.  The
platform-reported errors are thrown inside the `try` and re-wrapped by
the function's own `catch` (`发布文章请求失败:` prefix, since a local `Error`
has no `.response`). -/
def publishArticle (st : WAState) (now : Int) (a : ArticleArgs)
    (env : PubEnv) : Except String PublishResult × WAState × List NetCall :=
  if jsStartsWith st.appId "test_" then
    (Except.ok
      { success := true, publishId := some (toString (now - 1000)),
        msgId := some (toString now),
        articleUrl := some ("https://mp.weixin.qq.com/s/example_" ++ toString now),
        mediaId := some "test_media_id" }, st, [])
  else
    match getAccessToken st now env.tokenResp with
    | (Except.error e, st₁, calls) => (Except.error e, st₁, calls)
    | (Except.ok _, st₁, calls₀) =>
      let thumb := draftPayloadThumb a.thumbMediaId
      let calls₁ := calls₀ ++ [NetCall.draftCreate thumb]
      match env.draftResp with
      | NetResult.httpErr d m =>
        (Except.error ("发布文章失败: " ++ jsOr d.errmsg m), st₁, calls₁)
      | NetResult.netErr m =>
        (Except.error ("发布文章请求失败: " ++ m), st₁, calls₁)
      | NetResult.ok d =>
        if errcodeBad d.errcode then
          (Except.error ("发布文章请求失败: 创建草稿失败: " ++ optTemplate d.errmsg),
            st₁, calls₁)
        else
          let calls₂ := calls₁ ++ [NetCall.publishSubmit]
          match env.publishResp with
          | NetResult.httpErr q m =>
            (Except.error ("发布文章失败: " ++ jsOr q.errmsg m), st₁, calls₂)
          | NetResult.netErr m =>
            (Except.error ("发布文章请求失败: " ++ m), st₁, calls₂)
          | NetResult.ok q =>
            if errcodeBad q.errcode then
              (Except.error ("发布文章请求失败: 发布文章失败: " ++ optTemplate q.errmsg),
                st₁, calls₂)
            else
              match resolveArticleUrl st₁ now q.publish_id env with
              | (url, st₂, calls₃) =>
                (Except.ok
                  { success := true, publishId := q.publish_id,
                    msgId := q.msg_id, articleUrl := some url,
                    mediaId := d.media_id }, st₂, calls₂ ++ calls₃)

/-- `WeChatAPI.createNewsMedia` (lines 350-385): token outside the `try`
(unwrapped), one `uploadnews` call; a body without a truthy `media_id`
throws inside the `try` and is re-wrapped by the function's `catch`. -/
def createNewsMedia (st : WAState) (now : Int) (_a : ArticleArgs)
    (env : PubEnv) : Except String String × WAState × List NetCall :=
  match getAccessToken st now env.tokenResp with
  | (Except.error e, st₁, calls) => (Except.error e, st₁, calls)
  | (Except.ok _, st₁, calls₀) =>
    let calls₁ := calls₀ ++ [NetCall.newsMediaCreate]
    match env.newsResp with
    | NetResult.ok d =>
      match d.media_id with
      | some m =>
        if m ≠ "" then (Except.ok m, st₁, calls₁)
        else (Except.error ("创建图文消息请求失败: 创建图文消息失败: " ++
            jsOr d.errmsg "未知错误"), st₁, calls₁)
      | none => (Except.error ("创建图文消息请求失败: 创建图文消息失败: " ++
          jsOr d.errmsg "未知错误"), st₁, calls₁)
    | NetResult.httpErr d m =>
      (Except.error ("创建图文消息失败: " ++ jsOr d.errmsg m), st₁, calls₁)
    | NetResult.netErr m =>
      (Except.error ("创建图文消息请求失败: " ++ m), st₁, calls₁)

/-- `WeChatAPI.previewArticle` (lines 290-343): test short-circuit on the
recipient (`previewOpenId === 'test_openid' || previewOpenId.startsWith('test_')`)
— note: the credentials are *not* inspected here.  Otherwise
`createNewsMedia` (whose thrown errors, plain `Error`s, are re-wrapped by
this function's `catch`), the token, and one mass-preview send with a
strict `errcode === 0` success check. -/
def previewArticle (st : WAState) (now : Int) (a : ArticleArgs)
    (previewOpenId : String) (env : PubEnv) :
    Except String PublishResult × WAState × List NetCall :=
  if previewOpenId = "test_openid" ∨ jsStartsWith previewOpenId "test_" then
    (Except.ok
      { success := true, publishId := none, msgId := some (toString now),
        articleUrl := some ("https://mp.weixin.qq.com/s/example_" ++ toString now),
        mediaId := some "test_media_id" }, st, [])
  else
    match createNewsMedia st now a env with
    | (Except.error e, st₁, calls) =>
      (Except.error ("文章预览请求失败: " ++ e), st₁, calls)
    | (Except.ok mediaId, st₁, calls₀) =>
      match getAccessToken st₁ now env.tokenResp with
      | (Except.error e, st₂, calls₁) =>
        (Except.error ("文章预览请求失败: " ++ e), st₂, calls₀ ++ calls₁)
      | (Except.ok _, st₂, calls₁) =>
        let calls₂ := calls₀ ++ calls₁ ++ [NetCall.previewSend]
        match env.previewResp with
        | NetResult.ok d =>
          if d.errcode = some 0 then
            (Except.ok
              { success := true, publishId := none, msgId := d.msg_id,
                articleUrl := none, mediaId := some mediaId }, st₂, calls₂)
          else
            (Except.error ("文章预览请求失败: 文章预览失败: " ++ optTemplate d.errmsg),
              st₂, calls₂)
        | NetResult.httpErr d m =>
          (Except.error ("文章预览失败: " ++ jsOr d.errmsg m), st₂, calls₂)
        | NetResult.netErr m =>
          (Except.error ("文章预览请求失败: " ++ m), st₂, calls₂)

/-! ## Tool layer (src/src/tools/wechat-publisher.js, src/unnamed/part_001)

The Markdown renderer (`MarkdownConverter.convertToWeChatHTML`) is an
excluded collaborator treated by the spec as an opaque text transform; it
is passed in as a function parameter `md`.  The `Date.now()` clock is
held constant (`now`) within one tool call, so the reported
`executionTime` is modelled as `0`.  The locale timestamp renderer
(`toLocaleString`) is passed in as `fmtTs`. -/

/-- One `{type, text}` content item of an MCP response. -/
structure ContentItem where
  type : String
  text : String
deriving DecidableEq

/-- The MCP tool-response envelope; the success path of the source omits
`isError`, which consumers read as false. -/
structure McpResponse where
  content : List ContentItem
  isError : Bool
deriving DecidableEq

/-- Inbound parameters of `wechat_publish_article`. -/
structure PublishParams where
  title : Option String
  content : Option String
  author : Option String
  appId : Option String
  appSecret : Option String
  coverImagePath : Option String
  previewMode : Option Bool
  previewOpenId : Option String

/-- Inbound parameters of `wechat_query_status`. -/
structure StatusParams where
  msgId : Option String
  appId : Option String
  appSecret : Option String

/-- Modelled from the spec: `validatePublishParams` lives in
`src/utils/validator.js`, which is not among the provided sources.  Per
§6 of the spec the validator checks only basic shape (type/length/
pattern of individual fields) — required `title`, `content`, `appId`,
`appSecret` present and truthy, `title` at most 64 characters, `author`
at most 8 characters when present — while the cross-field rule
"previewMode requires previewRecipient" is re-checked by the core itself
(wechat-publisher.js lines 66-69).  Returns the error list; valid means
empty. -/
def validatePublishParams (p : PublishParams) : List String :=
  (if jsTruthy p.title then [] else ["title是必需参数"]) ++
  (match p.title with
   | some t => if t.length ≤ 64 then [] else ["title长度超过64字符"]
   | none => []) ++
  (if jsTruthy p.content then [] else ["content是必需参数"]) ++
  (match p.author with
   | some aut => if aut.length ≤ 8 then [] else ["author长度超过8字符"]
   | none => []) ++
  (if jsTruthy p.appId then [] else ["appId是必需参数"]) ++
  (if jsTruthy p.appSecret then [] else ["appSecret是必需参数"])

/-- Modelled from the spec: `validateStatusParams` (also from the absent
`src/utils/validator.js`) checks basic shape only: required `msgId`,
`appId`, `appSecret` present and truthy. -/
def validateStatusParams (p : StatusParams) : List String :=
  (if jsTruthy p.msgId then [] else ["msgId是必需参数"]) ++
  (if jsTruthy p.appId then [] else ["appId是必需参数"]) ++
  (if jsTruthy p.appSecret then [] else ["appSecret是必需参数"])

namespace WeChatPublisher

/-- `WeChatPublisher.buildSuccessMessage` (lines 134-167). -/
def buildSuccessMessage (title author : Option String)
    (result : PublishResult) (previewMode : Bool) (executionTime : Int)
    (thumbMediaId : Option String) : String :=
  (if previewMode then "👀" else "✅") ++ " 文章" ++
  (if previewMode then "预览" else "发布") ++ "成功！\n\n" ++
  "📱 标题: " ++ optTemplate title ++ "\n" ++
  "👤 作者: " ++ optTemplate author ++ "\n" ++
  (if jsTruthy result.articleUrl then
    "🔗 链接: " ++ optTemplate result.articleUrl ++ "\n" else "") ++
  (if jsTruthy result.publishId then
    "📊 发布ID: " ++ optTemplate result.publishId ++ "\n" else "") ++
  (if jsTruthy result.msgId then
    "📨 消息ID: " ++ optTemplate result.msgId ++ "\n" else "") ++
  (if jsTruthy thumbMediaId then "🖼️ 封面图: 已上传\n" else "") ++
  "⏱️ 处理时间: " ++ toString executionTime ++ "ms\n" ++
  (if previewMode then
    "\n👀 预览已发送到指定用户，请检查微信查看效果。"
  else
    "\n🎉 您的文章已成功发布到微信公众号！读者可以在公众号中看到这篇文章。")

/-- The remediation hints appended by `buildErrorMessage`
(lines 175-200). -/
def errorHints (e : String) : String :=
  (if strContains e "access_token" then
    "🔑 AppID/AppSecret问题:\n• 检查微信公众号AppID和AppSecret是否正确\n• 确认公众号类型是否支持发布接口\n• 验证公众号是否已认证\n\n"
  else "") ++
  (if strContains e "ip" then
    "🌐 IP白名单问题:\n• 将服务器IP添加到微信公众平台的IP白名单\n• 登录微信公众平台 -> 开发 -> 基本配置 -> IP白名单\n\n"
  else "") ++
  (if strContains e "media" || strContains e "图" then
    "🖼️ 封面图问题:\n• 检查图片路径是否正确\n• 确认图片格式为PNG、JPG或JPEG\n• 验证图片大小不超过1MB\n\n"
  else "") ++
  "💡 通用解决方案:\n• 检查网络连接是否正常\n• 确认所有必需参数都已提供\n• 查看微信公众平台是否有维护通知\n• 如问题持续，请联系技术支持"

/-- `WeChatPublisher.buildErrorMessage` (lines 172-203): the failing
error's message verbatim, then advisory hints (the `params` argument is
unused by the source body). -/
def buildErrorMessage (e : String) : String :=
  "❌ 发布失败: " ++ e ++ "\n\n" ++ errorHints e

/-- The cover-upload step of `WeChatPublisher.publish` (lines 52-62):
attempted only for a truthy `coverImagePath`, and an upload failure is
swallowed (`thumbMediaId` stays null, the flow continues). -/
def coverStep (p : PublishParams) (st₀ : WAState) (now : Int)
    (env : PubEnv) : Option String × WAState × List NetCall :=
  match p.coverImagePath with
  | some path =>
    if path ≠ "" then
      match uploadCoverImage st₀ now path env with
      | (Except.ok m, st₁, calls) => (some m, st₁, calls)
      | (Except.error _, st₁, calls) => (none, st₁, calls)
    else (none, st₀, [])
  | none => (none, st₀, [])

/-- The `try` body of `WeChatPublisher.publish` (lines 19-111): validate,
render markdown, attempt the cover upload with failures swallowed
(lines 52-62), then check the preview precondition and dispatch to
`previewArticle` or `publishArticle`.  Returns the result together with
the preview flag and the obtained cover media id (for message
building). -/
def publishBody (p : PublishParams) (now : Int) (env : PubEnv)
    (md : String → String) :
    Except String (PublishResult × Bool × Option String) × WAState ×
      List NetCall :=
  let errs := validatePublishParams p
  let st₀ : WAState :=
    ⟨optTemplate p.appId, optTemplate p.appSecret, none, 0⟩
  if errs ≠ [] then
    (Except.error ("参数验证失败: " ++ String.intercalate ", " errs), st₀, [])
  else
    let htmlContent := md (optTemplate p.content)
    match coverStep p st₀ now env with
    | (thumb, st₁, calls₁) =>
      let args : ArticleArgs :=
        { title := optTemplate p.title, content := htmlContent,
          author := p.author, thumbMediaId := thumb }
      if p.previewMode.getD false then
        if jsTruthy p.previewOpenId then
          match previewArticle st₁ now args (optTemplate p.previewOpenId) env with
          | (Except.ok r, st₂, calls₂) =>
            (Except.ok (r, true, thumb), st₂, calls₁ ++ calls₂)
          | (Except.error e, st₂, calls₂) =>
            (Except.error e, st₂, calls₁ ++ calls₂)
        else
          (Except.error "预览模式需要提供previewOpenId参数", st₁, calls₁)
      else
        match publishArticle st₁ now args env with
        | (Except.ok r, st₂, calls₂) =>
          (Except.ok (r, false, thumb), st₂, calls₁ ++ calls₂)
        | (Except.error e, st₂, calls₂) =>
          (Except.error e, st₂, calls₁ ++ calls₂)

/-- `WeChatPublisher.publish` (lines 16-129): the whole body runs inside
one `try`; every failure is caught and returned as a
`{content:[{type:"text",text}], isError:true}` envelope. -/
def publish (p : PublishParams) (now : Int) (env : PubEnv)
    (md : String → String) : McpResponse × WAState × List NetCall :=
  match publishBody p now env md with
  | (Except.ok (r, pm, thumb), st, calls) =>
    ({ content := [⟨"text", buildSuccessMessage p.title p.author r pm 0 thumb⟩],
       isError := false }, st, calls)
  | (Except.error e, st, calls) =>
    ({ content := [⟨"text", buildErrorMessage e⟩], isError := true },
      st, calls)

end WeChatPublisher

namespace WeChatStatus

/-- `WeChatStatus.formatTimestamp` (part_001 lines 163-179): a falsy
timestamp (absent or zero) renders as `未知`; otherwise the locale
rendering `fmtTs` (abstracted `toLocaleString`). -/
def formatTimestamp (fmtTs : Int → String) : Option Int → String
  | none => "未知"
  | some t => if t = 0 then "未知" else fmtTs t

/-- `WeChatStatus.buildStatusMessage` (part_001 lines 74-114). -/
def buildStatusMessage (fmtTs : Int → String) (d : StatusData)
    (executionTime : Int) : String :=
  "📊 微信公众号文章状态查询\n\n" ++
  (if jsTruthy d.article_id then
    "🆔 文章ID: " ++ optTemplate d.article_id ++ "\n" else "") ++
  (match d.article_detail with
   | some det =>
     "📱 标题: " ++ jsOr det.title "未知" ++ "\n" ++
     "👤 作者: " ++ jsOr det.author "未知" ++ "\n" ++
     "📅 发布时间: " ++ formatTimestamp fmtTs det.publish_time ++ "\n"
   | none => "") ++
  (match d.publish_status with
   | some ps => "📈 发布状态: " ++ getStatusText ps ++ "\n"
   | none => "") ++
  (match d.article_detail with
   | some det =>
     match det.stat_info with
     | some stat =>
       "\n📊 数据统计:\n" ++
       "👀 阅读量: " ++ toString (stat.read_num.getD 0) ++ "\n" ++
       "👍 点赞数: " ++ toString (stat.like_num.getD 0) ++ "\n" ++
       "💬 评论数: " ++ toString (stat.comment_num.getD 0) ++ "\n" ++
       "📤 分享数: " ++ toString (stat.share_num.getD 0) ++ "\n"
     | none => ""
   | none => "") ++
  (match d.article_detail with
   | some det =>
     if jsTruthy det.url then
       "🔗 文章链接: " ++ optTemplate det.url ++ "\n" else ""
   | none => "") ++
  "⏱️ 查询时间: " ++ toString executionTime ++ "ms\n" ++
  "\n✅ 状态查询完成！数据已为您整理如上。"

/-- `WeChatStatus.buildErrorMessage` (part_001 lines 119-143). -/
def buildErrorMessage (e : String) : String :=
  "❌ 状态查询失败: " ++ e ++ "\n\n" ++
  ((if strContains e "access_token" then
    "🔑 认证问题:\n• 检查AppID和AppSecret是否正确\n• 确认公众号权限是否足够\n\n"
  else "") ++
  (if strContains e "msgId" || strContains e "not found" then
    "🔍 消息ID问题:\n• 检查提供的msgId是否正确\n• 确认消息是否确实存在\n• 只能查询最近的发布记录\n\n"
  else "") ++
  "💡 解决建议:\n• 确认msgId来自发布成功的返回结果\n• 检查网络连接是否正常\n• 如果是新发布的文章，请稍等几分钟后重试\n• 确保查询的是本公众号发布的文章")

/-- The `try` body of `WeChatStatus.query` (part_001 lines 18-51):
validate, then `getPublishStatus`. -/
def queryBody (p : StatusParams) (now : Int) (env : PubEnv) :
    Except String StatusData × WAState × List NetCall :=
  let errs := validateStatusParams p
  let st₀ : WAState :=
    ⟨optTemplate p.appId, optTemplate p.appSecret, none, 0⟩
  if errs ≠ [] then
    (Except.error ("参数验证失败: " ++ String.intercalate ", " errs), st₀, [])
  else
    getPublishStatus st₀ now p.msgId env

/-- `WeChatStatus.query` (part_001 lines 15-69): the whole body runs
inside one `try`; every failure is caught and returned as an
`isError:true` envelope. -/
def query (p : StatusParams) (now : Int) (env : PubEnv)
    (fmtTs : Int → String) : McpResponse × WAState × List NetCall :=
  match queryBody p now env with
  | (Except.ok d, st, calls) =>
    ({ content := [⟨"text", buildStatusMessage fmtTs d 0⟩],
       isError := false }, st, calls)
  | (Except.error e, st, calls) =>
    ({ content := [⟨"text", buildErrorMessage e⟩], isError := true },
      st, calls)

end WeChatStatus

/-! ## Call-shape lemmas -/

theorem tokenRefresh_calls (st : WAState) (now : Int)
    (r : NetResult TokenData) :
    (tokenRefresh st now r).2.2 = [NetCall.tokenFetch] := by
  cases r with
  | ok d =>
    cases hd : d.access_token with
    | some t =>
      simp only [tokenRefresh, hd]
      split <;> rfl
    | none => simp only [tokenRefresh, hd]
  | httpErr d m => rfl
  | netErr m => rfl

theorem getAccessToken_calls (st : WAState) (now : Int)
    (r : NetResult TokenData) :
    (getAccessToken st now r).2.2 = [] ∨
    (getAccessToken st now r).2.2 = [NetCall.tokenFetch] := by
  unfold getAccessToken
  split
  · split
    · exact Or.inl rfl
    · exact Or.inr (tokenRefresh_calls st now r)
  · exact Or.inr (tokenRefresh_calls st now r)

theorem calls_of_getAccessToken {st : WAState} {now : Int}
    {r : NetResult TokenData} {res : Except String String} {st₁ : WAState}
    {calls : List NetCall}
    (he : getAccessToken st now r = (res, st₁, calls)) :
    ∀ c ∈ calls, c = NetCall.tokenFetch := by
  intro c hc
  have h := getAccessToken_calls st now r
  rw [he] at h
  dsimp only [] at h
  rcases h with h | h <;> rw [h] at hc <;> simp at hc
  exact hc

theorem uploadCoverImage_calls (st : WAState) (now : Int) (path : String)
    (env : PubEnv) :
    ∀ c ∈ (uploadCoverImage st now path env).2.2,
      c = NetCall.tokenFetch ∨ c = NetCall.coverUpload := by
  intro c hc
  unfold uploadCoverImage at hc
  rcases hga : getAccessToken st now env.tokenResp with ⟨res, st₁, calls₀⟩
  have hmem₀ := calls_of_getAccessToken hga
  rw [hga] at hc
  have happ : c ∈ calls₀ ++ [NetCall.coverUpload] →
      c = NetCall.tokenFetch ∨ c = NetCall.coverUpload := by
    intro hm
    rcases List.mem_append.mp hm with h | h
    · exact Or.inl (hmem₀ c h)
    · simp at h
      exact Or.inr h
  cases res with
  | error e =>
    dsimp only [] at hc
    exact Or.inl (hmem₀ c hc)
  | ok tk =>
    dsimp only [] at hc
    rcases hfs : env.fsStat with ⟨enoent, m⟩ | ⟨isFile, size⟩ <;> rw [hfs] at hc
    · dsimp only [] at hc
      split at hc <;> exact Or.inl (hmem₀ c hc)
    · dsimp only [] at hc
      split at hc
      · exact Or.inl (hmem₀ c hc)
      · split at hc
        · exact Or.inl (hmem₀ c hc)
        · rcases hup : env.uploadResp with ⟨d⟩ | ⟨d, m'⟩ | ⟨m'⟩ <;>
            rw [hup] at hc <;> dsimp only [] at hc
          · rcases hmid : d.media_id with _ | m'' <;> rw [hmid] at hc <;>
              dsimp only [] at hc
            · exact happ hc
            · split at hc <;> exact happ hc
          · exact happ hc
          · exact happ hc

theorem getPublishStatusReal_calls (st : WAState) (now : Int) (env : PubEnv) :
    ∀ c ∈ (getPublishStatusReal st now env).2.2,
      c = NetCall.tokenFetch ∨ c = NetCall.statusFetch := by
  intro c hc
  unfold getPublishStatusReal at hc
  rcases hga : getAccessToken st now env.tokenResp with ⟨res, st₁, calls₀⟩
  have hmem₀ := calls_of_getAccessToken hga
  rw [hga] at hc
  have happ : c ∈ calls₀ ++ [NetCall.statusFetch] →
      c = NetCall.tokenFetch ∨ c = NetCall.statusFetch := by
    intro hm
    rcases List.mem_append.mp hm with h | h
    · exact Or.inl (hmem₀ c h)
    · simp at h
      exact Or.inr h
  cases res with
  | error e =>
    dsimp only [] at hc
    exact Or.inl (hmem₀ c hc)
  | ok tk =>
    dsimp only [] at hc
    rcases hsr : env.statusResp with ⟨d⟩ | ⟨d, m⟩ | ⟨m⟩ <;>
      rw [hsr] at hc <;> dsimp only [] at hc
    · split at hc <;> exact happ hc
    · exact happ hc
    · exact happ hc

theorem getPublishStatus_calls (st : WAState) (now : Int)
    (msgId : Option String) (env : PubEnv) :
    ∀ c ∈ (getPublishStatus st now msgId env).2.2,
      c = NetCall.tokenFetch ∨ c = NetCall.statusFetch := by
  intro c hc
  unfold getPublishStatus at hc
  cases msgId with
  | some m =>
    dsimp only [] at hc
    split at hc
    · simp at hc
    · exact getPublishStatusReal_calls st now env c hc
  | none => exact getPublishStatusReal_calls st now env c hc

/-- C2: when the draft-create response arrives with transport success but
a non-zero embedded `errcode`, `publishArticle` fails with an error whose
message contains the platform's error text (after the function's own
`catch` re-wrapping), and the publish-submit call is never issued. -/
theorem publishArticle_platform_error (st st₁ : WAState) (now : Int)
    (a : ArticleArgs) (env : PubEnv) (tk : String) (calls₀ : List NetCall)
    (d : DraftData) (e : Int) (emsg : String)
    (hTest : jsStartsWith st.appId "test_" = false)
    (hTok : getAccessToken st now env.tokenResp = (Except.ok tk, st₁, calls₀))
    (hDraft : env.draftResp = NetResult.ok d)
    (hCode : d.errcode = some e) (hNz : e ≠ 0)
    (hMsg : d.errmsg = some emsg) :
    publishArticle st now a env =
      (Except.error ("发布文章请求失败: 创建草稿失败: " ++ emsg), st₁,
        calls₀ ++ [NetCall.draftCreate (draftPayloadThumb a.thumbMediaId)]) ∧
    strContains ("发布文章请求失败: 创建草稿失败: " ++ emsg) emsg = true ∧
    NetCall.publishSubmit ∉ (publishArticle st now a env).2.2 := by
  have hbad : errcodeBad d.errcode = true := by
    rw [hCode]
    simp [errcodeBad, hNz]
  have heq : publishArticle st now a env =
      (Except.error ("发布文章请求失败: 创建草稿失败: " ++ emsg), st₁,
        calls₀ ++ [NetCall.draftCreate (draftPayloadThumb a.thumbMediaId)]) := by
    unfold publishArticle
    rw [if_neg (by simp [hTest]), hTok]
    dsimp only []
    rw [hDraft]
    dsimp only []
    rw [if_pos hbad, hMsg]
    rfl
  refine ⟨heq, ?_, ?_⟩
  · have h := strContains_mid "发布文章请求失败: 创建草稿失败: " emsg ""
    rwa [String.append_empty] at h
  · rw [heq]
    intro hmem
    dsimp only [] at hmem
    rcases List.mem_append.mp hmem with h | h
    · have := calls_of_getAccessToken hTok _ h
      cases this
    · simp at h

/-- Witness for C2: application error code 40001 with message
`invalid credential` inside an HTTP-200 draft-create response; the
returned error carries the platform text and no publish-submit call is in
the trace. -/
theorem publishArticle_platform_error_witness :
    publishArticle ⟨"wx1", "s", some "TK", 99999⟩ 5
        ⟨"t", "c", none, none⟩
        ⟨NetResult.ok ⟨some "TK", 7200, none⟩, FsStat.statErr true "x",
          NetResult.netErr "x",
          NetResult.ok ⟨some 40001, some "invalid credential", none⟩,
          NetResult.netErr "x", NetResult.netErr "x", NetResult.netErr "x",
          NetResult.netErr "x", ⟨0, 0, 0, 0⟩⟩ =
      (Except.error "发布文章请求失败: 创建草稿失败: invalid credential",
        ⟨"wx1", "s", some "TK", 99999⟩, [NetCall.draftCreate none]) ∧
    strContains "发布文章请求失败: 创建草稿失败: invalid credential"
      "invalid credential" = true ∧
    NetCall.publishSubmit ∉
      (publishArticle ⟨"wx1", "s", some "TK", 99999⟩ 5
        ⟨"t", "c", none, none⟩
        ⟨NetResult.ok ⟨some "TK", 7200, none⟩, FsStat.statErr true "x",
          NetResult.netErr "x",
          NetResult.ok ⟨some 40001, some "invalid credential", none⟩,
          NetResult.netErr "x", NetResult.netErr "x", NetResult.netErr "x",
          NetResult.netErr "x", ⟨0, 0, 0, 0⟩⟩).2.2 := by
  have h := publishArticle_platform_error
    ⟨"wx1", "s", some "TK", 99999⟩ ⟨"wx1", "s", some "TK", 99999⟩ 5
    ⟨"t", "c", none, none⟩
    ⟨NetResult.ok ⟨some "TK", 7200, none⟩, FsStat.statErr true "x",
      NetResult.netErr "x",
      NetResult.ok ⟨some 40001, some "invalid credential", none⟩,
      NetResult.netErr "x", NetResult.netErr "x", NetResult.netErr "x",
      NetResult.netErr "x", ⟨0, 0, 0, 0⟩⟩
    "TK" [] ⟨some 40001, some "invalid credential", none⟩ 40001
    "invalid credential" (by decide) (by decide) rfl rfl (by decide) rfl
  exact h

/-- C5 counterexample: a *preview* request whose credentials use the
reserved test prefix but whose recipient does not — `previewArticle`
inspects only the recipient, so it runs `createNewsMedia`, which issues a
token fetch: network I/O occurs and the operation fails rather than
returning a fabricated success. -/
theorem preview_testcreds_claim_false :
    jsStartsWith "test_app" "test_" = true ∧
    (previewArticle ⟨"test_app", "s", none, 0⟩ 0 ⟨"t", "c", none, none⟩
        "real_openid"
        ⟨NetResult.netErr "boom", FsStat.statErr true "x",
          NetResult.netErr "x", NetResult.netErr "x", NetResult.netErr "x",
          NetResult.netErr "x", NetResult.netErr "x", NetResult.netErr "x",
          ⟨0, 0, 0, 0⟩⟩).2.2 = [NetCall.tokenFetch] ∧
    (previewArticle ⟨"test_app", "s", none, 0⟩ 0 ⟨"t", "c", none, none⟩
        "real_openid"
        ⟨NetResult.netErr "boom", FsStat.statErr true "x",
          NetResult.netErr "x", NetResult.netErr "x", NetResult.netErr "x",
          NetResult.netErr "x", NetResult.netErr "x", NetResult.netErr "x",
          ⟨0, 0, 0, 0⟩⟩).1 =
      Except.error "文章预览请求失败: Access Token网络请求失败: boom" := by
  refine ⟨rfl, by decide, by decide⟩

/-- C5 (amended): a *publish* call with test-prefixed credentials, and a
*preview* call with a test-prefixed (or literal `test_openid`) recipient,
perform no network I/O and return `success = true` with the fabricated
identifiers the source synthesises (clock-derived decimal ids, an
`example_` URL and the literal media id `test_media_id`); a preview call
inspects only its recipient, not the credentials. -/
theorem sandbox_short_circuit (st : WAState) (now : Int) (a : ArticleArgs)
    (openid : String) (env : PubEnv)
    (hApp : jsStartsWith st.appId "test_" = true)
    (hOid : openid = "test_openid" ∨ jsStartsWith openid "test_" = true) :
    publishArticle st now a env =
      (Except.ok
        { success := true, publishId := some (toString (now - 1000)),
          msgId := some (toString now),
          articleUrl := some ("https://mp.weixin.qq.com/s/example_" ++ toString now),
          mediaId := some "test_media_id" }, st, []) ∧
    previewArticle st now a openid env =
      (Except.ok
        { success := true, publishId := none, msgId := some (toString now),
          articleUrl := some ("https://mp.weixin.qq.com/s/example_" ++ toString now),
          mediaId := some "test_media_id" }, st, []) := by
  constructor
  · unfold publishArticle
    rw [if_pos hApp]
  · unfold previewArticle
    rw [if_pos hOid]

/-- Witness for the amended C5 at concrete inputs. -/
theorem sandbox_short_circuit_witness :
    publishArticle ⟨"test_app", "s", none, 0⟩ 5000 ⟨"t", "c", none, none⟩
        ⟨NetResult.netErr "boom", FsStat.statErr true "x",
          NetResult.netErr "x", NetResult.netErr "x", NetResult.netErr "x",
          NetResult.netErr "x", NetResult.netErr "x", NetResult.netErr "x",
          ⟨0, 0, 0, 0⟩⟩ =
      (Except.ok
        { success := true, publishId := some "4000", msgId := some "5000",
          articleUrl := some "https://mp.weixin.qq.com/s/example_5000",
          mediaId := some "test_media_id" },
        ⟨"test_app", "s", none, 0⟩, []) ∧
    previewArticle ⟨"test_app", "s", none, 0⟩ 5000 ⟨"t", "c", none, none⟩
        "test_openid"
        ⟨NetResult.netErr "boom", FsStat.statErr true "x",
          NetResult.netErr "x", NetResult.netErr "x", NetResult.netErr "x",
          NetResult.netErr "x", NetResult.netErr "x", NetResult.netErr "x",
          ⟨0, 0, 0, 0⟩⟩ =
      (Except.ok
        { success := true, publishId := none, msgId := some "5000",
          articleUrl := some "https://mp.weixin.qq.com/s/example_5000",
          mediaId := some "test_media_id" },
        ⟨"test_app", "s", none, 0⟩, []) := by
  have h := sandbox_short_circuit ⟨"test_app", "s", none, 0⟩ 5000
    ⟨"t", "c", none, none⟩ "test_openid"
    ⟨NetResult.netErr "boom", FsStat.statErr true "x",
      NetResult.netErr "x", NetResult.netErr "x", NetResult.netErr "x",
      NetResult.netErr "x", NetResult.netErr "x", NetResult.netErr "x",
      ⟨0, 0, 0, 0⟩⟩ (by decide) (Or.inl rfl)
  rcases h with ⟨h₁, h₂⟩
  constructor
  · rw [h₁]
    decide
  · rw [h₂]
    decide

/-- The URL the status-query path would yield: the extracted first-item
URL of a successful status query, `none` on failure. -/
def statusUrlOf (st : WAState) (now : Int) (pid : Option String)
    (env : PubEnv) : Option String :=
  match getPublishStatus st now pid env with
  | (Except.ok dd, _, _) => extractedStatusUrl dd
  | (Except.error _, _, _) => none

theorem resolveArticleUrl_spec (st : WAState) (now : Int)
    (pid : Option String) (env : PubEnv) :
    (∃ u, statusUrlOf st now pid env = some u ∧ u ≠ "" ∧
        (resolveArticleUrl st now pid env).1 = u) ∨
    (resolveArticleUrl st now pid env).1 = fallbackUrl pid := by
  unfold resolveArticleUrl statusUrlOf
  rcases hs : getPublishStatus st now pid env with ⟨res, st₁, calls⟩
  cases res with
  | ok dd =>
    dsimp only []
    cases hu : extractedStatusUrl dd with
    | some u =>
      dsimp only []
      by_cases he : u = ""
      · right
        rw [if_pos he]
      · left
        exact ⟨u, rfl, he, by rw [if_neg he]⟩
    | none =>
      right
      rfl
  | error e =>
    right
    rfl

theorem fallbackUrl_ne_empty (pid : Option String) : fallbackUrl pid ≠ "" := by
  unfold fallbackUrl
  intro h
  have hl := congrArg String.length h
  rw [String.length_append] at hl
  have h27 : ("https://mp.weixin.qq.com/s/" : String).length = 27 := rfl
  have h0 : ("" : String).length = 0 := rfl
  omega

theorem fallbackUrl_contains (pid : String) :
    strContains (fallbackUrl (some pid)) pid = true := by
  have h := strContains_mid "https://mp.weixin.qq.com/s/" pid ""
  rw [String.append_empty] at h
  exact h

/-- C7: after a successful publish submission (with a publish id in the
body), the result always carries a non-empty `articleUrl`: either the URL
extracted from the post-settling status query, or — when that query
fails, yields no item, or yields a falsy URL — the deterministic fallback
`https://mp.weixin.qq.com/s/${publishId}`, which contains the publish
id. -/
theorem publishArticle_url (st st₁ : WAState) (now : Int) (a : ArticleArgs)
    (env : PubEnv) (tk : String) (calls₀ : List NetCall) (d : DraftData)
    (q : PublishData) (pid : String)
    (hTest : jsStartsWith st.appId "test_" = false)
    (hTok : getAccessToken st now env.tokenResp = (Except.ok tk, st₁, calls₀))
    (hDraft : env.draftResp = NetResult.ok d)
    (hDCode : errcodeBad d.errcode = false)
    (hPub : env.publishResp = NetResult.ok q)
    (hPCode : errcodeBad q.errcode = false)
    (hPid : q.publish_id = some pid) :
    ∃ r : PublishResult,
      (publishArticle st now a env).1 = Except.ok r ∧
      r.success = true ∧ r.publishId = some pid ∧ r.msgId = q.msg_id ∧
      r.mediaId = d.media_id ∧
      (∃ u, r.articleUrl = some u ∧ u ≠ "") ∧
      ((∃ u, statusUrlOf st₁ now (some pid) env = some u ∧ u ≠ "" ∧
          r.articleUrl = some u) ∨
        (r.articleUrl = some (fallbackUrl (some pid)) ∧
          strContains (fallbackUrl (some pid)) pid = true)) := by
  have hmain : (publishArticle st now a env).1 =
      Except.ok
        { success := true, publishId := some pid, msgId := q.msg_id,
          articleUrl := some (resolveArticleUrl st₁ now (some pid) env).1,
          mediaId := d.media_id } := by
    unfold publishArticle
    rw [if_neg (by simp [hTest]), hTok]
    try dsimp only []
    rw [hDraft]
    try dsimp only []
    rw [if_neg (by simp [hDCode])]
    try dsimp only []
    rw [hPub]
    try dsimp only []
    rw [if_neg (by simp [hPCode]), hPid]
  refine ⟨_, hmain, rfl, rfl, rfl, rfl, ?_, ?_⟩
  · rcases resolveArticleUrl_spec st₁ now (some pid) env with ⟨u, _, hne, hu⟩ | hfb
    · exact ⟨u, by rw [hu], hne⟩
    · exact ⟨fallbackUrl (some pid), by rw [hfb], fallbackUrl_ne_empty _⟩
  · rcases resolveArticleUrl_spec st₁ now (some pid) env with ⟨u, hs, hne, hu⟩ | hfb
    · exact Or.inl ⟨u, hs, hne, by rw [hu]⟩
    · exact Or.inr ⟨by rw [hfb], fallbackUrl_contains pid⟩

/-- Witness for C7: a publish whose status query returns a real URL, run
end to end at concrete values. -/
theorem publishArticle_url_witness :
    ∃ r : PublishResult,
      (publishArticle ⟨"wx1", "s", some "TK", 99999⟩ 5 ⟨"t", "c", none, none⟩
        ⟨NetResult.ok ⟨some "TK", 7200, none⟩, FsStat.statOk true 1000,
          NetResult.ok ⟨some "COVER1", none, none⟩,
          NetResult.ok ⟨some 0, none, some "M1"⟩,
          NetResult.ok ⟨none, none, some "P1", some "S1"⟩,
          NetResult.ok ⟨some 0, none, some 1, none,
            some ⟨some 1,
              some [⟨none, none, none, none, some "https://real.url/x",
                none, none⟩],
              none, none, none, none, none⟩⟩,
          NetResult.netErr "x", NetResult.netErr "x", ⟨0, 0, 0, 0⟩⟩).1 =
        Except.ok r ∧
      r.success = true ∧ r.publishId = some "P1" ∧ r.msgId = some "S1" ∧
      r.mediaId = some "M1" ∧
      (∃ u, r.articleUrl = some u ∧ u ≠ "") := by
  obtain ⟨r, h₁, h₂, h₃, h₄, h₅, h₆, _⟩ := publishArticle_url
    ⟨"wx1", "s", some "TK", 99999⟩ ⟨"wx1", "s", some "TK", 99999⟩ 5
    ⟨"t", "c", none, none⟩
    ⟨NetResult.ok ⟨some "TK", 7200, none⟩, FsStat.statOk true 1000,
      NetResult.ok ⟨some "COVER1", none, none⟩,
      NetResult.ok ⟨some 0, none, some "M1"⟩,
      NetResult.ok ⟨none, none, some "P1", some "S1"⟩,
      NetResult.ok ⟨some 0, none, some 1, none,
        some ⟨some 1,
          some [⟨none, none, none, none, some "https://real.url/x",
            none, none⟩],
          none, none, none, none, none⟩⟩,
      NetResult.netErr "x", NetResult.netErr "x", ⟨0, 0, 0, 0⟩⟩
    "TK" [] ⟨some 0, none, some "M1"⟩ ⟨none, none, some "P1", some "S1"⟩
    "P1" (by decide) (by decide) rfl (by decide) rfl (by decide) rfl
  exact ⟨r, h₁, h₂, h₃, h₄, h₅, h₆⟩

theorem buildErrorMessage_contains (e : String) :
    strContains (WeChatPublisher.buildErrorMessage e) e = true := by
  unfold WeChatPublisher.buildErrorMessage
  rw [String.append_assoc ("❌ 发布失败: " ++ e) "\n\n"
    (WeChatPublisher.errorHints e)]
  exact strContains_mid "❌ 发布失败: " e
    ("\n\n" ++ WeChatPublisher.errorHints e)

theorem statusBuildErrorMessage_contains (e : String) :
    strContains (WeChatStatus.buildErrorMessage e) e = true := by
  unfold WeChatStatus.buildErrorMessage
  rw [String.append_assoc ("❌ 状态查询失败: " ++ e) "\n\n" _]
  exact strContains_mid "❌ 状态查询失败: " e _

theorem coverStep_calls (p : PublishParams) (st₀ : WAState) (now : Int)
    (env : PubEnv) :
    ∀ c ∈ (WeChatPublisher.coverStep p st₀ now env).2.2,
      c = NetCall.tokenFetch ∨ c = NetCall.coverUpload := by
  intro c hc
  unfold WeChatPublisher.coverStep at hc
  rcases hcp : p.coverImagePath with _ | path <;> rw [hcp] at hc
  · simp at hc
  · dsimp only [] at hc
    split at hc
    · rcases hup : uploadCoverImage st₀ now path env with ⟨ur, st₁, callsu⟩
      rw [hup] at hc
      have hcu : ∀ x ∈ callsu,
          x = NetCall.tokenFetch ∨ x = NetCall.coverUpload := by
        intro x hx
        apply uploadCoverImage_calls st₀ now path env
        rw [hup]
        exact hx
      cases ur <;> dsimp only [] at hc <;> exact hcu c hc
    · simp at hc

theorem coverStep_nil (p : PublishParams) (st₀ : WAState) (now : Int)
    (env : PubEnv) (h : p.coverImagePath = none) :
    WeChatPublisher.coverStep p st₀ now env = (none, st₀, []) := by
  unfold WeChatPublisher.coverStep
  rw [h]

theorem publishBody_preview_missing (p : PublishParams) (now : Int)
    (env : PubEnv) (md : String → String)
    (hValid : validatePublishParams p = [])
    (hPm : p.previewMode = some true)
    (hNoOid : jsTruthy p.previewOpenId = false) :
    ∃ stx callsx,
      WeChatPublisher.publishBody p now env md =
        (Except.error "预览模式需要提供previewOpenId参数", stx, callsx) ∧
      (p.coverImagePath = none → callsx = []) ∧
      (∀ c ∈ callsx, c = NetCall.tokenFetch ∨ c = NetCall.coverUpload) := by
  unfold WeChatPublisher.publishBody
  rw [hValid]
  rw [if_neg (by simp)]
  rw [hPm]
  rcases hcov : WeChatPublisher.coverStep p
      ⟨optTemplate p.appId, optTemplate p.appSecret, none, 0⟩ now env
    with ⟨thumb, st₁, calls₁⟩
  dsimp only [Option.getD]
  rw [if_pos rfl, if_neg (by rw [hNoOid]; exact Bool.false_ne_true)]
  refine ⟨st₁, calls₁, rfl, ?_, ?_⟩
  · intro hnone
    have := coverStep_nil p
      ⟨optTemplate p.appId, optTemplate p.appSecret, none, 0⟩ now env hnone
    rw [this] at hcov
    cases hcov
    rfl
  · intro c hc
    apply coverStep_calls p
      ⟨optTemplate p.appId, optTemplate p.appSecret, none, 0⟩ now env
    rw [hcov]
    exact hc

/-- C3 (amended): a publish request with `previewMode = true` and no
truthy `previewOpenId` fails with the validation error
`预览模式需要提供previewOpenId参数`; when no `coverImagePath` is supplied no
network call is made, but when one is supplied the cover-upload step
(token fetch and upload) runs *before* the preview-recipient check, so
network I/O does occur on that path; in either case no draft, submit or
preview call is ever issued. -/
theorem preview_missing_recipient (p : PublishParams) (now : Int)
    (env : PubEnv) (md : String → String)
    (hValid : validatePublishParams p = [])
    (hPm : p.previewMode = some true)
    (hNoOid : jsTruthy p.previewOpenId = false) :
    (WeChatPublisher.publish p now env md).1.isError = true ∧
    strContains
      ((WeChatPublisher.publish p now env md).1.content.headD ⟨"", ""⟩).text
      "预览模式需要提供previewOpenId参数" = true ∧
    (p.coverImagePath = none →
      (WeChatPublisher.publish p now env md).2.2 = []) ∧
    (∀ c ∈ (WeChatPublisher.publish p now env md).2.2,
      c = NetCall.tokenFetch ∨ c = NetCall.coverUpload) := by
  obtain ⟨stx, callsx, hbody, hnone, hcalls⟩ :=
    publishBody_preview_missing p now env md hValid hPm hNoOid
  unfold WeChatPublisher.publish
  rw [hbody]
  refine ⟨rfl, ?_, hnone, hcalls⟩
  exact buildErrorMessage_contains "预览模式需要提供previewOpenId参数"

/-- C3 counterexample: with `previewMode = true`, no `previewOpenId`
and a cover image path, the operation does fail, but only *after* a token
fetch and a cover upload have been issued — network I/O occurs, contrary
to the claim. -/
theorem preview_missing_recipient_claim_false :
    (WeChatPublisher.publish
        ⟨some "Hello", some "# Hi", some "me", some "wx1234567890123456",
          some "secretsecretsecretsecretsecret12", some "/tmp/cover.jpg",
          some true, none⟩ 0
        ⟨NetResult.ok ⟨some "TK", 7200, none⟩, FsStat.statOk true 1000,
          NetResult.ok ⟨some "COVER1", none, none⟩, NetResult.netErr "x",
          NetResult.netErr "x", NetResult.netErr "x", NetResult.netErr "x",
          NetResult.netErr "x", ⟨0, 0, 0, 0⟩⟩ id).1.isError = true ∧
    (WeChatPublisher.publish
        ⟨some "Hello", some "# Hi", some "me", some "wx1234567890123456",
          some "secretsecretsecretsecretsecret12", some "/tmp/cover.jpg",
          some true, none⟩ 0
        ⟨NetResult.ok ⟨some "TK", 7200, none⟩, FsStat.statOk true 1000,
          NetResult.ok ⟨some "COVER1", none, none⟩, NetResult.netErr "x",
          NetResult.netErr "x", NetResult.netErr "x", NetResult.netErr "x",
          NetResult.netErr "x", ⟨0, 0, 0, 0⟩⟩ id).2.2 =
      [NetCall.tokenFetch, NetCall.coverUpload] := by
  constructor
  · decide
  · decide

/-- Witness for the amended C3: without a cover image the same request
fails with no network call at all. -/
theorem preview_missing_recipient_witness :
    (WeChatPublisher.publish
        ⟨some "Hello", some "# Hi", some "me", some "wx1234567890123456",
          some "secretsecretsecretsecretsecret12", none, some true, none⟩ 0
        ⟨NetResult.netErr "x", FsStat.statErr true "x", NetResult.netErr "x",
          NetResult.netErr "x", NetResult.netErr "x", NetResult.netErr "x",
          NetResult.netErr "x", NetResult.netErr "x", ⟨0, 0, 0, 0⟩⟩
        id).1.isError = true ∧
    (WeChatPublisher.publish
        ⟨some "Hello", some "# Hi", some "me", some "wx1234567890123456",
          some "secretsecretsecretsecretsecret12", none, some true, none⟩ 0
        ⟨NetResult.netErr "x", FsStat.statErr true "x", NetResult.netErr "x",
          NetResult.netErr "x", NetResult.netErr "x", NetResult.netErr "x",
          NetResult.netErr "x", NetResult.netErr "x", ⟨0, 0, 0, 0⟩⟩
        id).2.2 = [] := by
  have h := preview_missing_recipient
    ⟨some "Hello", some "# Hi", some "me", some "wx1234567890123456",
      some "secretsecretsecretsecretsecret12", none, some true, none⟩ 0
    ⟨NetResult.netErr "x", FsStat.statErr true "x", NetResult.netErr "x",
      NetResult.netErr "x", NetResult.netErr "x", NetResult.netErr "x",
      NetResult.netErr "x", NetResult.netErr "x", ⟨0, 0, 0, 0⟩⟩ id
    (by decide) rfl rfl
  exact ⟨h.1, h.2.2.1 rfl⟩

theorem getAccessToken_appId (st : WAState) (now : Int)
    (r : NetResult TokenData) :
    (getAccessToken st now r).2.1.appId = st.appId := by
  unfold getAccessToken tokenRefresh
  repeat' split
  all_goals rfl

theorem uploadCoverImage_state (st : WAState) (now : Int) (path : String)
    (env : PubEnv) :
    (uploadCoverImage st now path env).2.1 =
      (getAccessToken st now env.tokenResp).2.1 := by
  unfold uploadCoverImage
  rcases hga : getAccessToken st now env.tokenResp with ⟨res, st₁, calls⟩
  cases res with
  | error e => rfl
  | ok tk =>
    rcases hfs : env.fsStat with ⟨enoent, m⟩ | ⟨isFile, size⟩ <;> dsimp only []
    · split <;> rfl
    · split
      · rfl
      · split
        · rfl
        · rcases hup : env.uploadResp with ⟨d⟩ | ⟨d, m'⟩ | ⟨m'⟩ <;>
            dsimp only []
          rcases hmid : d.media_id with _ | mm <;> dsimp only []
          split <;> rfl


theorem resolveArticleUrl_calls (st : WAState) (now : Int)
    (pid : Option String) (env : PubEnv) :
    ∀ c ∈ (resolveArticleUrl st now pid env).2.2,
      c = NetCall.tokenFetch ∨ c = NetCall.statusFetch := by
  intro c hc
  unfold resolveArticleUrl at hc
  rcases hs : getPublishStatus st now pid env with ⟨res, st₁, calls⟩
  rw [hs] at hc
  have hmem : ∀ x ∈ calls,
      x = NetCall.tokenFetch ∨ x = NetCall.statusFetch := by
    intro x hx
    apply getPublishStatus_calls st now pid env
    rw [hs]
    exact hx
  cases res with
  | ok dd =>
    dsimp only [] at hc
    cases hu : extractedStatusUrl dd <;> rw [hu] at hc <;>
      dsimp only [] at hc
    · exact hmem c hc
    · exact hmem c hc
  | error e =>
    dsimp only [] at hc
    exact hmem c hc

/-- The happy publish path as one equation: draft created, submitted,
URL resolved. -/
theorem publishArticle_happy (st st₁ : WAState) (now : Int)
    (a : ArticleArgs) (env : PubEnv) (tk : String) (calls₀ : List NetCall)
    (d : DraftData) (q : PublishData)
    (hTest : jsStartsWith st.appId "test_" = false)
    (hTok : getAccessToken st now env.tokenResp = (Except.ok tk, st₁, calls₀))
    (hDraft : env.draftResp = NetResult.ok d)
    (hDCode : errcodeBad d.errcode = false)
    (hPub : env.publishResp = NetResult.ok q)
    (hPCode : errcodeBad q.errcode = false) :
    publishArticle st now a env =
      (Except.ok
        { success := true, publishId := q.publish_id, msgId := q.msg_id,
          articleUrl := some (resolveArticleUrl st₁ now q.publish_id env).1,
          mediaId := d.media_id },
        (resolveArticleUrl st₁ now q.publish_id env).2.1,
        (calls₀ ++ [NetCall.draftCreate (draftPayloadThumb a.thumbMediaId)] ++
          [NetCall.publishSubmit]) ++
          (resolveArticleUrl st₁ now q.publish_id env).2.2) := by
  unfold publishArticle
  rw [if_neg (by simp [hTest]), hTok]
  try dsimp only []
  rw [hDraft]
  try dsimp only []
  rw [if_neg (by simp [hDCode])]
  try dsimp only []
  rw [hPub]
  try dsimp only []
  rw [if_neg (by simp [hPCode])]

/-- C6: when a cover image is supplied and its upload fails (missing,
oversized or platform-rejected — any failing outcome of
`uploadCoverImage`), the publish flow continues; if the remaining steps
succeed the tool returns a non-error envelope, the draft payload carries
no `thumb_media_id`, and the upload failure is never propagated to the
caller. -/
theorem cover_failure_nonfatal (p : PublishParams) (now : Int) (env : PubEnv)
    (md : String → String) (path err tk : String) (st₁ st₂ : WAState)
    (callsu calls₀ : List NetCall) (d : DraftData) (q : PublishData)
    (hValid : validatePublishParams p = [])
    (hPm : p.previewMode.getD false = false)
    (hCover : p.coverImagePath = some path) (hPath : path ≠ "")
    (hUp : uploadCoverImage
        ⟨optTemplate p.appId, optTemplate p.appSecret, none, 0⟩ now path env =
      (Except.error err, st₁, callsu))
    (hTest : jsStartsWith (optTemplate p.appId) "test_" = false)
    (hTok : getAccessToken st₁ now env.tokenResp = (Except.ok tk, st₂, calls₀))
    (hDraft : env.draftResp = NetResult.ok d)
    (hDCode : errcodeBad d.errcode = false)
    (hPub : env.publishResp = NetResult.ok q)
    (hPCode : errcodeBad q.errcode = false) :
    (WeChatPublisher.publish p now env md).1.isError = false ∧
    NetCall.draftCreate none ∈ (WeChatPublisher.publish p now env md).2.2 ∧
    (∀ t, NetCall.draftCreate (some t) ∉
      (WeChatPublisher.publish p now env md).2.2) := by
  have hcov : WeChatPublisher.coverStep p
      ⟨optTemplate p.appId, optTemplate p.appSecret, none, 0⟩ now env =
      (none, st₁, callsu) := by
    unfold WeChatPublisher.coverStep
    rw [hCover]
    dsimp only []
    rw [if_pos hPath, hUp]
  have hstapp : st₁.appId = optTemplate p.appId := by
    have h₁ : (uploadCoverImage
        ⟨optTemplate p.appId, optTemplate p.appSecret, none, 0⟩
        now path env).2.1 = st₁ := by rw [hUp]
    rw [← h₁, uploadCoverImage_state, getAccessToken_appId]
  have hTest' : jsStartsWith st₁.appId "test_" = false := by
    rw [hstapp]
    exact hTest
  have hpa := publishArticle_happy st₁ st₂ now
    ⟨optTemplate p.title, md (optTemplate p.content), p.author, none⟩ env tk
    calls₀ d q hTest' hTok hDraft hDCode hPub hPCode
  have hbody : WeChatPublisher.publishBody p now env md =
      (Except.ok
        ({ success := true, publishId := q.publish_id, msgId := q.msg_id,
           articleUrl := some (resolveArticleUrl st₂ now q.publish_id env).1,
           mediaId := d.media_id }, false, none),
        (resolveArticleUrl st₂ now q.publish_id env).2.1,
        callsu ++
          ((calls₀ ++ [NetCall.draftCreate none] ++ [NetCall.publishSubmit]) ++
            (resolveArticleUrl st₂ now q.publish_id env).2.2)) := by
    unfold WeChatPublisher.publishBody
    rw [hValid, if_neg (by simp), hcov]
    dsimp only []
    rw [if_neg (by rw [hPm]; exact Bool.false_ne_true)]
    rw [hpa]
    rfl
  have hcallsu : ∀ c ∈ callsu,
      c = NetCall.tokenFetch ∨ c = NetCall.coverUpload := by
    intro c hc
    apply uploadCoverImage_calls
      ⟨optTemplate p.appId, optTemplate p.appSecret, none, 0⟩ now path env
    rw [hUp]
    exact hc
  have hcalls₀ := calls_of_getAccessToken hTok
  have hres := resolveArticleUrl_calls st₂ now q.publish_id env
  unfold WeChatPublisher.publish
  rw [hbody]
  refine ⟨rfl, ?_, ?_⟩
  · dsimp only []
    simp [List.mem_append]
  · intro t hmem
    dsimp only [] at hmem
    rcases List.mem_append.mp hmem with h | h
    · rcases hcallsu _ h with h' | h' <;> cases h'
    · rcases List.mem_append.mp h with h | h
      · rcases List.mem_append.mp h with h | h
        · rcases List.mem_append.mp h with h | h
          · have := hcalls₀ _ h
            cases this
          · simp at h
        · simp at h
      · rcases hres _ h with h' | h' <;> cases h'

/-- Witness for C6: oversized cover file (2 MB), publish succeeds without
a cover reference. -/
theorem cover_failure_nonfatal_witness :
    (WeChatPublisher.publish
        ⟨some "Hello", some "# Hi", some "me", some "wx1234567890123456",
          some "secretsecretsecretsecretsecret12", some "/tmp/cover.jpg",
          none, none⟩ 0
        ⟨NetResult.ok ⟨some "TK", 7200, none⟩, FsStat.statOk true 2000000,
          NetResult.ok ⟨some "COVER1", none, none⟩,
          NetResult.ok ⟨some 0, none, some "M1"⟩,
          NetResult.ok ⟨none, none, some "P1", some "S1"⟩,
          NetResult.netErr "down", NetResult.netErr "x", NetResult.netErr "x",
          ⟨0, 0, 0, 0⟩⟩ id).1.isError = false ∧
    NetCall.draftCreate none ∈
      (WeChatPublisher.publish
        ⟨some "Hello", some "# Hi", some "me", some "wx1234567890123456",
          some "secretsecretsecretsecretsecret12", some "/tmp/cover.jpg",
          none, none⟩ 0
        ⟨NetResult.ok ⟨some "TK", 7200, none⟩, FsStat.statOk true 2000000,
          NetResult.ok ⟨some "COVER1", none, none⟩,
          NetResult.ok ⟨some 0, none, some "M1"⟩,
          NetResult.ok ⟨none, none, some "P1", some "S1"⟩,
          NetResult.netErr "down", NetResult.netErr "x", NetResult.netErr "x",
          ⟨0, 0, 0, 0⟩⟩ id).2.2 ∧
    (∀ t, NetCall.draftCreate (some t) ∉
      (WeChatPublisher.publish
        ⟨some "Hello", some "# Hi", some "me", some "wx1234567890123456",
          some "secretsecretsecretsecretsecret12", some "/tmp/cover.jpg",
          none, none⟩ 0
        ⟨NetResult.ok ⟨some "TK", 7200, none⟩, FsStat.statOk true 2000000,
          NetResult.ok ⟨some "COVER1", none, none⟩,
          NetResult.ok ⟨some 0, none, some "M1"⟩,
          NetResult.ok ⟨none, none, some "P1", some "S1"⟩,
          NetResult.netErr "down", NetResult.netErr "x", NetResult.netErr "x",
          ⟨0, 0, 0, 0⟩⟩ id).2.2) :=
  cover_failure_nonfatal
    ⟨some "Hello", some "# Hi", some "me", some "wx1234567890123456",
      some "secretsecretsecretsecretsecret12", some "/tmp/cover.jpg",
      none, none⟩ 0
    ⟨NetResult.ok ⟨some "TK", 7200, none⟩, FsStat.statOk true 2000000,
      NetResult.ok ⟨some "COVER1", none, none⟩,
      NetResult.ok ⟨some 0, none, some "M1"⟩,
      NetResult.ok ⟨none, none, some "P1", some "S1"⟩,
      NetResult.netErr "down", NetResult.netErr "x", NetResult.netErr "x",
      ⟨0, 0, 0, 0⟩⟩ id "/tmp/cover.jpg"
    "封面图上传请求失败: 图片文件过大，请使用小于1MB的图片" "TK"
    ⟨"wx1234567890123456", "secretsecretsecretsecretsecret12", some "TK",
      7140000⟩
    ⟨"wx1234567890123456", "secretsecretsecretsecretsecret12", some "TK",
      7140000⟩
    [NetCall.tokenFetch] [] ⟨some 0, none, some "M1"⟩
    ⟨none, none, some "P1", some "S1"⟩ (by decide) rfl rfl (by decide)
    (by decide) (by decide) (by decide) rfl (by decide) rfl (by decide)

/-- C10: both tool entry points are total functions of their inputs (the
whole source body sits in one `try`/`catch`, modelled by the `Except`
wrapping): for every input and oracle outcome they return a well-formed
`{content:[{type:"text",text}]}` envelope; every internal failure `e`
yields `isError = true` with the failing error's message contained in the
text, and every success yields a non-error envelope of the same shape. -/
theorem tool_envelopes (p : PublishParams) (q : StatusParams)
    (now now' : Int) (env env' : PubEnv) (md : String → String)
    (fmtTs : Int → String) :
    ((WeChatPublisher.publish p now env md).1.content.length = 1 ∧
     (∀ item ∈ (WeChatPublisher.publish p now env md).1.content,
       item.type = "text") ∧
     (∀ e stx callsx,
       WeChatPublisher.publishBody p now env md =
         (Except.error e, stx, callsx) →
       (WeChatPublisher.publish p now env md).1 =
         ⟨[⟨"text", WeChatPublisher.buildErrorMessage e⟩], true⟩ ∧
       strContains (WeChatPublisher.buildErrorMessage e) e = true) ∧
     (∀ r stx callsx,
       WeChatPublisher.publishBody p now env md = (Except.ok r, stx, callsx) →
       (WeChatPublisher.publish p now env md).1.isError = false)) ∧
    ((WeChatStatus.query q now' env' fmtTs).1.content.length = 1 ∧
     (∀ item ∈ (WeChatStatus.query q now' env' fmtTs).1.content,
       item.type = "text") ∧
     (∀ e stx callsx,
       WeChatStatus.queryBody q now' env' = (Except.error e, stx, callsx) →
       (WeChatStatus.query q now' env' fmtTs).1 =
         ⟨[⟨"text", WeChatStatus.buildErrorMessage e⟩], true⟩ ∧
       strContains (WeChatStatus.buildErrorMessage e) e = true) ∧
     (∀ d stx callsx,
       WeChatStatus.queryBody q now' env' = (Except.ok d, stx, callsx) →
       (WeChatStatus.query q now' env' fmtTs).1.isError = false)) := by
  constructor
  · rcases hb : WeChatPublisher.publishBody p now env md with ⟨res, stx, callsx⟩
    cases res with
    | ok r =>
      obtain ⟨r₁, pm, th⟩ := r
      have hpub : WeChatPublisher.publish p now env md =
          ({ content := [⟨"text",
              WeChatPublisher.buildSuccessMessage p.title p.author r₁ pm 0 th⟩],
             isError := false }, stx, callsx) := by
        unfold WeChatPublisher.publish
        rw [hb]
      refine ⟨by rw [hpub]; rfl, ?_, ?_, ?_⟩
      · intro item hitem
        rw [hpub] at hitem
        simp at hitem
        rw [hitem]
      · intro e stx' callsx' heq
        simp only [Prod.mk.injEq] at heq
        exact absurd heq.1 (by simp)
      · intro r' stx' callsx' _
        rw [hpub]
    | error e =>
      have hpub : WeChatPublisher.publish p now env md =
          ({ content := [⟨"text", WeChatPublisher.buildErrorMessage e⟩],
             isError := true }, stx, callsx) := by
        unfold WeChatPublisher.publish
        rw [hb]
      refine ⟨by rw [hpub]; rfl, ?_, ?_, ?_⟩
      · intro item hitem
        rw [hpub] at hitem
        simp at hitem
        rw [hitem]
      · intro e' stx' callsx' heq
        simp only [Prod.mk.injEq, Except.error.injEq] at heq
        obtain ⟨he, -, -⟩ := heq
        subst he
        exact ⟨by rw [hpub], buildErrorMessage_contains e⟩
      · intro r' stx' callsx' heq
        simp only [Prod.mk.injEq] at heq
        exact absurd heq.1 (by simp)
  · rcases hb : WeChatStatus.queryBody q now' env' with ⟨res, stx, callsx⟩
    cases res with
    | ok dd =>
      have hq : WeChatStatus.query q now' env' fmtTs =
          ({ content := [⟨"text", WeChatStatus.buildStatusMessage fmtTs dd 0⟩],
             isError := false }, stx, callsx) := by
        unfold WeChatStatus.query
        rw [hb]
      refine ⟨by rw [hq]; rfl, ?_, ?_, ?_⟩
      · intro item hitem
        rw [hq] at hitem
        simp at hitem
        rw [hitem]
      · intro e stx' callsx' heq
        simp only [Prod.mk.injEq] at heq
        exact absurd heq.1 (by simp)
      · intro d' stx' callsx' _
        rw [hq]
    | error e =>
      have hq : WeChatStatus.query q now' env' fmtTs =
          ({ content := [⟨"text", WeChatStatus.buildErrorMessage e⟩],
             isError := true }, stx, callsx) := by
        unfold WeChatStatus.query
        rw [hb]
      refine ⟨by rw [hq]; rfl, ?_, ?_, ?_⟩
      · intro item hitem
        rw [hq] at hitem
        simp at hitem
        rw [hitem]
      · intro e' stx' callsx' heq
        simp only [Prod.mk.injEq, Except.error.injEq] at heq
        obtain ⟨he, -, -⟩ := heq
        subst he
        exact ⟨by rw [hq], statusBuildErrorMessage_contains e⟩
      · intro r' stx' callsx' heq
        simp only [Prod.mk.injEq] at heq
        exact absurd heq.1 (by simp)

/-- Witness for C10: empty publish parameters fail validation and an
all-failing status query fails, both still returning well-formed
`isError` envelopes embedding the failing message. -/
theorem tool_envelopes_witness :
    (WeChatPublisher.publish ⟨none, none, none, none, none, none, none, none⟩
        0 ⟨NetResult.netErr "x", FsStat.statErr true "x", NetResult.netErr "x",
          NetResult.netErr "x", NetResult.netErr "x", NetResult.netErr "x",
          NetResult.netErr "x", NetResult.netErr "x", ⟨0, 0, 0, 0⟩⟩ id).1 =
      ⟨[⟨"text", WeChatPublisher.buildErrorMessage
        "参数验证失败: title是必需参数, content是必需参数, appId是必需参数, appSecret是必需参数"⟩],
        true⟩ ∧
    strContains (WeChatPublisher.buildErrorMessage
      "参数验证失败: title是必需参数, content是必需参数, appId是必需参数, appSecret是必需参数")
      "参数验证失败: title是必需参数, content是必需参数, appId是必需参数, appSecret是必需参数" = true ∧
    (WeChatStatus.query ⟨some "123", some "wx1", some "s"⟩ 0
        ⟨NetResult.netErr "boom", FsStat.statErr true "x", NetResult.netErr "x",
          NetResult.netErr "x", NetResult.netErr "x", NetResult.netErr "x",
          NetResult.netErr "x", NetResult.netErr "x", ⟨0, 0, 0, 0⟩⟩
        (fun _ => "ts")).1 =
      ⟨[⟨"text", WeChatStatus.buildErrorMessage
        "Access Token网络请求失败: boom"⟩], true⟩ ∧
    strContains (WeChatStatus.buildErrorMessage "Access Token网络请求失败: boom")
      "Access Token网络请求失败: boom" = true := by
  have h := tool_envelopes
    ⟨none, none, none, none, none, none, none, none⟩
    ⟨some "123", some "wx1", some "s"⟩ 0 0
    ⟨NetResult.netErr "x", FsStat.statErr true "x", NetResult.netErr "x",
      NetResult.netErr "x", NetResult.netErr "x", NetResult.netErr "x",
      NetResult.netErr "x", NetResult.netErr "x", ⟨0, 0, 0, 0⟩⟩
    ⟨NetResult.netErr "boom", FsStat.statErr true "x", NetResult.netErr "x",
      NetResult.netErr "x", NetResult.netErr "x", NetResult.netErr "x",
      NetResult.netErr "x", NetResult.netErr "x", ⟨0, 0, 0, 0⟩⟩
    id (fun _ => "ts")
  have h₁ := h.1.2.2.1
    "参数验证失败: title是必需参数, content是必需参数, appId是必需参数, appSecret是必需参数"
    ⟨"undefined", "undefined", none, 0⟩ [] rfl
  have h₂ := h.2.2.2.1 "Access Token网络请求失败: boom"
    ⟨"wx1", "s", none, 0⟩ [NetCall.tokenFetch] rfl
  exact ⟨h₁.1, h₁.2, h₂.1, h₂.2⟩
